import Mathlib

/-!
Verification of the spin-be room orchestrator against its specification.

The definitions below are a shallow embedding of the TypeScript sources:
`RoomsRepository` / `RoomsService` (room registry), `RoomsGateway`
(signaling handlers, grace-period disconnect processing),
`MediasoupService` (media router bundles, worker pool auto-scaling)
and `JsonStorageService` (chat messages and reactions), together with
the `sha256`-based room id derivation used by `generateRoomId`.
-/

namespace SpinBe

/-! ## Generic association-list helpers mirroring the JS `Map` semantics -/

/-- Replace the first element satisfying `p` by its image under `f`
(JS pattern: `find` an object in an array, then mutate it in place). -/
def updateFirst (p : α → Bool) (f : α → α) : List α → List α
  | [] => []
  | x :: xs => if p x then f x :: xs else x :: updateFirst p f xs

/-- `Map.get` on an association list. -/
def alGet [DecidableEq κ] (l : List (κ × α)) (k : κ) : Option α :=
  (l.find? (fun kv => kv.1 = k)).map (·.2)

/-- `Map.set` on an association list: overwrite the binding if the key is
present, otherwise append a fresh binding (JS `Map` iteration order). -/
def alSet [DecidableEq κ] (l : List (κ × α)) (k : κ) (v : α) : List (κ × α) :=
  if (l.find? (fun kv => kv.1 = k)).isSome then
    updateFirst (fun kv => kv.1 = k) (fun _ => (k, v)) l
  else
    l ++ [(k, v)]

/-- `Map.delete` on an association list. -/
def alDel [DecidableEq κ] (l : List (κ × α)) (k : κ) : List (κ × α) :=
  l.filter (fun kv => kv.1 ≠ k)

theorem updateFirst_subset (p : α → Bool) (f : α → α) (l : List α) :
    ∀ x ∈ updateFirst p f l, x ∈ l ∨ ∃ y ∈ l, p y ∧ x = f y := by
  induction l with
  | nil => intro x hx; cases hx
  | cons a as ih =>
    intro x hx
    simp only [updateFirst] at hx
    by_cases hpa : p a
    · simp [hpa] at hx
      rcases hx with h | h
      · exact Or.inr ⟨a, by simp, hpa, h⟩
      · exact Or.inl (by simp [h])
    · simp [hpa] at hx
      rcases hx with h | h
      · exact Or.inl (by simp [h])
      · rcases ih x h with h' | ⟨y, hy, hpy, hxy⟩
        · exact Or.inl (by simp [h'])
        · exact Or.inr ⟨y, by simp [hy], hpy, hxy⟩

/-! ## SHA-256 (executable, over byte lists; bytes and words are `Nat`) -/

/-- Truncate to a 32-bit word. -/
def w32 (n : Nat) : Nat := n % 4294967296

/-- Right rotation of a 32-bit word. -/
def rotr (x n : Nat) : Nat := w32 ((x >>> n) + (x <<< (32 - n)))

def shaCh (x y z : Nat) : Nat := (x &&& y) ^^^ ((4294967295 - x) &&& z)

def shaMaj (x y z : Nat) : Nat := (x &&& y) ^^^ (x &&& z) ^^^ (y &&& z)

def bigSigma0 (x : Nat) : Nat := rotr x 2 ^^^ rotr x 13 ^^^ rotr x 22

def bigSigma1 (x : Nat) : Nat := rotr x 6 ^^^ rotr x 11 ^^^ rotr x 25

def smallSigma0 (x : Nat) : Nat := rotr x 7 ^^^ rotr x 18 ^^^ (x >>> 3)

def smallSigma1 (x : Nat) : Nat := rotr x 17 ^^^ rotr x 19 ^^^ (x >>> 10)

/-- The 64 SHA-256 round constants. -/
def shaK : Array Nat := #[
  1116352408, 1899447441, 3049323471, 3921009573, 961987163, 1508970993,
  2453635748, 2870763221, 3624381080, 310598401, 607225278, 1426881987,
  1925078388, 2162078206, 2614888103, 3248222580, 3835390401, 4022224774,
  264347078, 604807628, 770255983, 1249150122, 1555081692, 1996064986,
  2554220882, 2821834349, 2952996808, 3210313671, 3336571891, 3584528711,
  113926993, 338241895, 666307205, 773529912, 1294757372, 1396182291,
  1695183700, 1986661051, 2177026350, 2456956037, 2730485921, 2820302411,
  3259730800, 3345764771, 3516065817, 3600352804, 4094571909, 275423344,
  430227734, 506948616, 659060556, 883997877, 958139571, 1322822218,
  1537002063, 1747873779, 1955562222, 2024104815, 2227730452, 2361852424,
  2428436474, 2756734187, 3204031479, 3329325298]

/-- SHA-256 padding: append `0x80`, zero bytes up to 56 mod 64, then the
message bit length as a 64-bit big-endian integer. -/
def shaPad (msg : List Nat) : List Nat :=
  let bitLen := msg.length * 8
  let zeros := (120 - ((msg.length + 1) % 64)) % 64
  msg ++ [0x80] ++ List.replicate zeros 0 ++
    ((List.range 8).map (fun i => (bitLen >>> (8 * (7 - i))) % 256))

/-- Split a padded byte list into 64-byte blocks (fuel keeps the
recursion structural so the kernel can evaluate it). -/
def shaBlocksAux : Nat → List Nat → List (List Nat)
  | 0, _ => []
  | _, [] => []
  | fuel + 1, l => l.take 64 :: shaBlocksAux fuel (l.drop 64)

/-- Split a padded byte list into 64-byte blocks. -/
def shaBlocks (l : List Nat) : List (List Nat) := shaBlocksAux (l.length + 1) l

/-- The 16 initial 32-bit words of a 64-byte block (big-endian). -/
def blockWords (b : List Nat) : Array Nat :=
  ((List.range 16).map (fun i =>
    (b.getD (4 * i) 0) <<< 24 + (b.getD (4 * i + 1) 0) <<< 16 +
    (b.getD (4 * i + 2) 0) <<< 8 + b.getD (4 * i + 3) 0)).toArray

/-- Extend the 16 block words to the 64-entry message schedule. -/
def shaSchedule (b : List Nat) : Array Nat :=
  (List.range 48).foldl
    (fun w t =>
      w.push (w32 (smallSigma1 (w.getD (t + 14) 0) + w.getD (t + 9) 0 +
        smallSigma0 (w.getD (t + 1) 0) + w.getD t 0)))
    (blockWords b)

/-- One compression round. -/
def shaRound (st : Nat × Nat × Nat × Nat × Nat × Nat × Nat × Nat)
    (kw : Nat × Nat) : Nat × Nat × Nat × Nat × Nat × Nat × Nat × Nat :=
  let (a, b, c, d, e, f, g, h) := st
  let t1 := w32 (h + bigSigma1 e + shaCh e f g + kw.1 + kw.2)
  let t2 := w32 (bigSigma0 a + shaMaj a b c)
  (w32 (t1 + t2), a, b, c, w32 (d + t1), e, f, g)

/-- Process one 64-byte block, updating the 8-word hash state. -/
def shaCompress (hs : Array Nat) (b : List Nat) : Array Nat :=
  let w := shaSchedule b
  let init := (hs.getD 0 0, hs.getD 1 0, hs.getD 2 0, hs.getD 3 0,
               hs.getD 4 0, hs.getD 5 0, hs.getD 6 0, hs.getD 7 0)
  let (a, bb, c, d, e, f, g, h) := (shaK.zip w).foldl shaRound init
  #[w32 (hs.getD 0 0 + a), w32 (hs.getD 1 0 + bb), w32 (hs.getD 2 0 + c),
    w32 (hs.getD 3 0 + d), w32 (hs.getD 4 0 + e), w32 (hs.getD 5 0 + f),
    w32 (hs.getD 6 0 + g), w32 (hs.getD 7 0 + h)]

/-- SHA-256 of a byte list: the eight 32-bit words of the digest. -/
def sha256Words (msg : List Nat) : Array Nat :=
  (shaBlocks (shaPad msg)).foldl shaCompress
    #[1779033703, 3144134277, 1013904242, 2773480762, 1359893119,
      2600822924, 528734635, 1541459225]

/-- A hex digit character. -/
def hexChar (n : Nat) : Char :=
  if n < 10 then Char.ofNat (48 + n) else Char.ofNat (87 + n)

/-- Lower-case hex rendering of one 32-bit word (8 digits). -/
def wordHex (n : Nat) : List Char :=
  (List.range 8).map (fun i => hexChar ((n >>> (4 * (7 - i))) % 16))

/-- `createHash('sha256').update(msg).digest('hex')`. -/
def sha256Hex (msg : List Nat) : String :=
  ⟨((sha256Words msg).toList.map wordHex).foldr (· ++ ·) []⟩

/-- UTF-8 encoding of one character, as in Node's `hash.update(string)`. -/
def utf8Char (c : Char) : List Nat :=
  let n := c.toNat
  if n < 0x80 then [n]
  else if n < 0x800 then [0xc0 + (n >>> 6), 0x80 + (n &&& 0x3f)]
  else if n < 0x10000 then
    [0xe0 + (n >>> 12), 0x80 + ((n >>> 6) &&& 0x3f), 0x80 + (n &&& 0x3f)]
  else
    [0xf0 + (n >>> 18), 0x80 + ((n >>> 12) &&& 0x3f),
     0x80 + ((n >>> 6) &&& 0x3f), 0x80 + (n &&& 0x3f)]

/-- UTF-8 bytes of a string. -/
def utf8 (s : String) : List Nat :=
  s.data.foldr (fun c acc => utf8Char c ++ acc) []

set_option maxRecDepth 20000 in
/-- Sanity check of the SHA-256 embedding against the standard test vector
`sha256("abc")`. -/
theorem sha256Hex_abc :
    sha256Hex (utf8 "abc") =
      "ba7816bf8f01cfea414140de5dae2223b00361a396177a9cb410ff61f20015ad" := by
  decide

/-! ## Room registry: `RoomsRepository` and `RoomsService`

`Room.createdAt` (a wall-clock `Date`) takes no part in any behaviour and
is omitted.  The JS `Map`s become association lists with `Map` semantics;
in-place mutation of a room fetched from the map becomes `updateFirst`
keyed by `roomId` (room ids are the map keys, so the first match is the
fetched entry). -/

structure Room where
  roomId : String
  hostId : String
  members : List String
  theme : Option String := none
  deriving DecidableEq, Repr

structure LoggedInUser where
  genID : String
  name : String
  roomId : Option String
  socketId : String
  deriving DecidableEq, Repr

structure RoomsRepository where
  rooms : List Room := []
  userSocketMap : List (String × String) := []
  userRoomMap : List (String × String) := []
  loggedInUsers : List (String × LoggedInUser) := []
  deriving DecidableEq, Repr

namespace RoomsRepository

def findRoomById (repo : RoomsRepository) (roomId : String) : Option Room :=
  repo.rooms.find? (fun r => r.roomId = roomId)

def createRoom (repo : RoomsRepository) (room : Room) : RoomsRepository :=
  let rooms' :=
    if (repo.rooms.find? (fun r => r.roomId = room.roomId)).isSome then
      updateFirst (fun r => r.roomId = room.roomId) (fun _ => room) repo.rooms
    else repo.rooms ++ [room]
  { repo with rooms := rooms' }

def deleteRoom (repo : RoomsRepository) (roomId : String) : RoomsRepository :=
  { repo with rooms := repo.rooms.filter (fun r => r.roomId ≠ roomId) }

def setUserSocket (repo : RoomsRepository) (userId socketId : String) :
    RoomsRepository :=
  { repo with userSocketMap := alSet repo.userSocketMap userId socketId }

def getUserSocket (repo : RoomsRepository) (userId : String) : Option String :=
  alGet repo.userSocketMap userId

def deleteUserSocket (repo : RoomsRepository) (userId : String) :
    RoomsRepository :=
  { repo with userSocketMap := alDel repo.userSocketMap userId }

def findUserIdBySocketId (repo : RoomsRepository) (socketId : String) :
    Option String :=
  (repo.userSocketMap.find? (fun kv => kv.2 = socketId)).map (·.1)

def setUserRoom (repo : RoomsRepository) (userId roomId : String) :
    RoomsRepository :=
  { repo with userRoomMap := alSet repo.userRoomMap userId roomId }

def getUserRoom (repo : RoomsRepository) (userId : String) : Option String :=
  alGet repo.userRoomMap userId

def deleteUserRoom (repo : RoomsRepository) (userId : String) :
    RoomsRepository :=
  { repo with userRoomMap := alDel repo.userRoomMap userId }

/-- `addMemberToRoom` pushes the member onto the room's member array only
when it is not yet included; returns whether the room exists. -/
def addMemberToRoom (repo : RoomsRepository) (roomId memberId : String) :
    RoomsRepository × Bool :=
  match repo.findRoomById roomId with
  | none => (repo, false)
  | some _ =>
    let rooms' := updateFirst (fun r => r.roomId = roomId)
      (fun r => if memberId ∈ r.members then r
                else { r with members := r.members ++ [memberId] })
      repo.rooms
    ({ repo with rooms := rooms' }, true)

/-- `removeMemberFromRoom` splices out the first occurrence of the member;
returns whether a removal happened. -/
def removeMemberFromRoom (repo : RoomsRepository) (roomId memberId : String) :
    RoomsRepository × Bool :=
  match repo.findRoomById roomId with
  | none => (repo, false)
  | some room =>
    if memberId ∈ room.members then
      let rooms' := updateFirst (fun r => r.roomId = roomId)
        (fun r => { r with members := r.members.erase memberId })
        repo.rooms
      ({ repo with rooms := rooms' }, true)
    else (repo, false)

def addLoggedInUser (repo : RoomsRepository)
    (genID name : String) (roomId : Option String) (socketId : String) :
    RoomsRepository :=
  let users' := alSet repo.loggedInUsers genID ⟨genID, name, roomId, socketId⟩
  { repo with loggedInUsers := users' }

def getLoggedInUser (repo : RoomsRepository) (genID : String) :
    Option LoggedInUser :=
  alGet repo.loggedInUsers genID

def isUserLoggedInToRoom (repo : RoomsRepository) (genID roomId : String) :
    Bool :=
  match repo.getLoggedInUser genID with
  | none => false
  | some u => u.roomId = some roomId

def removeLoggedInUser (repo : RoomsRepository) (genID : String) :
    RoomsRepository :=
  { repo with loggedInUsers := alDel repo.loggedInUsers genID }

def getLoggedInUsersByRoom (repo : RoomsRepository) (roomId : String) :
    List LoggedInUser :=
  (repo.loggedInUsers.map (·.2)).filter (fun u => u.roomId = some roomId)

end RoomsRepository

/-! ### `RoomsService` -/

structure MemberLeftResult where
  memberId : String
  members : List String
  roomDeleted : Bool
  deriving DecidableEq, Repr

structure MemberDetail where
  genID : String
  name : String
  isHost : Bool
  deriving DecidableEq, Repr

namespace RoomsService

/-- `generateRoomId`: `"room-" + sha256("room-" + hostId).hex.substring(0, 12)`,
translated operation by operation from the source. -/
def generateRoomId (hostId : String) : String :=
  let hash := (sha256Hex (utf8 ("room-" ++ hostId))).take 12
  "room-" ++ hash

/-- The spec's wording of the room id derivation:
`roomId = "room-" + first-12-hex(sha256("room-" + hostId))`. -/
def specRoomId (hostId : String) : String :=
  "room-" ++ (sha256Hex (utf8 ("room-" ++ hostId))).take 12

def createRoom (repo : RoomsRepository) (hostId : String) :
    Room × RoomsRepository :=
  let roomId := generateRoomId hostId
  match repo.findRoomById roomId with
  | some room =>
    if hostId ∈ room.members then (room, repo)
    else
      let room' := { room with members := room.members ++ [hostId] }
      let rooms' := updateFirst (fun r => r.roomId = roomId)
        (fun _ => room') repo.rooms
      (room', { repo with rooms := rooms' })
  | none =>
    let room : Room := { roomId := roomId, hostId := hostId, members := [hostId] }
    (room, repo.createRoom room)

def findRoomById (repo : RoomsRepository) (roomId : String) : Option Room :=
  repo.findRoomById roomId

def joinRoom (repo : RoomsRepository) (roomId memberId : String) :
    Option Room × RoomsRepository :=
  match repo.findRoomById roomId with
  | none => (none, repo)
  | some _ =>
    let repo' := (repo.addMemberToRoom roomId memberId).1
    (repo'.findRoomById roomId, repo')

def leaveRoom (repo : RoomsRepository) (roomId memberId : String) :
    Option MemberLeftResult × RoomsRepository :=
  match repo.findRoomById roomId with
  | none => (none, repo)
  | some room =>
    if memberId ∈ room.members then
      let repo1 := (repo.removeMemberFromRoom roomId memberId).1
      let newMembers := room.members.erase memberId
      if memberId = room.hostId then
        (some ⟨memberId, newMembers, true⟩, repo1.deleteRoom roomId)
      else
        (some ⟨memberId, newMembers, false⟩, repo1)
    else (none, repo)

def handleUserDisconnect (repo : RoomsRepository) (userId : String) :
    Option MemberLeftResult × RoomsRepository :=
  match repo.getUserRoom userId with
  | none => (none, repo)
  | some roomId =>
    let (result, repo1) := leaveRoom repo roomId userId
    let repo2 := repo1.deleteUserSocket userId
    let repo3 := repo2.deleteUserRoom userId
    (result, repo3)

/-- `getRoomMembersWithDetails`; the JS fallback
`loggedInUser?.name || 'User ...'` also applies when the stored name is the
empty string. -/
def getRoomMembersWithDetails (repo : RoomsRepository) (roomId : String) :
    List MemberDetail :=
  match repo.findRoomById roomId with
  | none => []
  | some room =>
    room.members.map (fun memberId =>
      let name :=
        match repo.getLoggedInUser memberId with
        | some u => if u.name = "" then "User " ++ memberId else u.name
        | none => "User " ++ memberId
      ⟨memberId, name, memberId = room.hostId⟩)

/-- Modelled from the spec: `RoomsService.updateRoomTheme` is invoked by
`handleUpdateTheme` in `rooms.gateway.ts` but its definition is missing from
the sources.  The spec says `update-theme {roomId, theme}` updates the room's
stored theme; the gateway treats the returned boolean as success, failing
when the room does not exist. -/
def updateRoomTheme (repo : RoomsRepository) (roomId theme : String) :
    RoomsRepository × Bool :=
  match repo.findRoomById roomId with
  | none => (repo, false)
  | some _ =>
    let rooms' := updateFirst (fun r => r.roomId = roomId)
      (fun r => { r with theme := some theme }) repo.rooms
    ({ repo with rooms := rooms' }, true)

end RoomsService

/-! ### The registry invariant (spec §3 / §8): the host is a member and the
member list has no duplicates. -/

def roomOk (r : Room) : Prop := r.hostId ∈ r.members ∧ r.members.Nodup

def registryInv (repo : RoomsRepository) : Prop := ∀ r ∈ repo.rooms, roomOk r

instance (r : Room) : Decidable (roomOk r) := by
  unfold roomOk; infer_instance

instance (repo : RoomsRepository) : Decidable (registryInv repo) := by
  unfold registryInv; exact List.decidableBAll _ _

/-! ### Facts about `find?` and `updateFirst` -/

theorem find?_updateFirst_self (p : α → Bool) (f : α → α) (l : List α) (a : α)
    (h : l.find? p = some a) (hfa : p (f a)) :
    (updateFirst p f l).find? p = some (f a) := by
  induction l with
  | nil => simp at h
  | cons x xs ih =>
    by_cases hx : p x
    · rw [List.find?_cons_of_pos _ hx] at h
      injection h with h; subst h
      simp [updateFirst, hx, List.find?_cons_of_pos _ hfa]
    · rw [List.find?_cons_of_neg _ hx] at h
      simp [updateFirst, hx, List.find?_cons_of_neg _ hx, ih h]

theorem mem_updateFirst (p : α → Bool) (f : α → α) (l : List α) (a : α)
    (h : l.find? p = some a) :
    ∀ x ∈ updateFirst p f l, x ∈ l ∨ x = f a := by
  induction l with
  | nil => intro x hx; cases hx
  | cons y ys ih =>
    intro x hx
    by_cases hy : p y
    · rw [List.find?_cons_of_pos _ hy] at h
      injection h with h; subst h
      simp [updateFirst, hy] at hx
      rcases hx with h' | h'
      · exact Or.inr h'
      · exact Or.inl (by simp [h'])
    · rw [List.find?_cons_of_neg _ hy] at h
      simp [updateFirst, hy] at hx
      rcases hx with h' | h'
      · exact Or.inl (by simp [h'])
      · rcases ih h x h' with h'' | h''
        · exact Or.inl (by simp [h''])
        · exact Or.inr h''

theorem findRoomById_some {repo : RoomsRepository} {roomId : String}
    {room : Room} (h : repo.findRoomById roomId = some room) :
    room ∈ repo.rooms ∧ room.roomId = roomId := by
  refine ⟨List.mem_of_find?_eq_some h, ?_⟩
  have := List.find?_some h
  simpa using this

/-! ### Invariant preservation by the registry operations -/

theorem roomOk_addMember (r : Room) (m : String) (h : roomOk r) :
    roomOk (if m ∈ r.members then r else { r with members := r.members ++ [m] }) := by
  split
  · exact h
  · rename_i hm
    refine ⟨List.mem_append_left _ h.1, ?_⟩
    simpa [List.nodup_append] using ⟨h.2, hm⟩

theorem inv_addMemberToRoom (repo : RoomsRepository) (roomId memberId : String)
    (h : registryInv repo) :
    registryInv (repo.addMemberToRoom roomId memberId).1 := by
  unfold RoomsRepository.addMemberToRoom
  cases hf : repo.findRoomById roomId with
  | none => simpa using h
  | some room =>
    intro r hr
    simp only at hr
    rcases mem_updateFirst _ _ _ room hf r hr with h1 | h1
    · exact h r h1
    · subst h1
      exact roomOk_addMember room memberId (h room (findRoomById_some hf).1)

theorem inv_createRoom (repo : RoomsRepository) (hostId : String)
    (h : registryInv repo) :
    registryInv (RoomsService.createRoom repo hostId).2 := by
  cases hf : repo.findRoomById (RoomsService.generateRoomId hostId) with
  | some room =>
    by_cases hm : hostId ∈ room.members
    · simp only [RoomsService.createRoom, hf, hm, if_true]
      exact h
    · simp only [RoomsService.createRoom, hf, hm, if_false]
      intro r hr
      rcases mem_updateFirst _ _ repo.rooms room hf r hr with h1 | h1
      · exact h r h1
      · rw [h1]
        have hok := h room (findRoomById_some hf).1
        exact ⟨List.mem_append_left _ hok.1,
          by simpa [List.nodup_append] using ⟨hok.2, hm⟩⟩
  | none =>
    have hnone : (repo.rooms.find? (fun r =>
        r.roomId = RoomsService.generateRoomId hostId)).isSome = false := by
      unfold RoomsRepository.findRoomById at hf
      simp [hf]
    simp only [RoomsService.createRoom, hf, RoomsRepository.createRoom, hnone,
      Bool.false_eq_true, if_false]
    intro r hr
    rcases List.mem_append.mp hr with h1 | h1
    · exact h r h1
    · simp at h1
      rw [h1]
      exact ⟨by simp, by simp⟩

theorem inv_leaveRoom (repo : RoomsRepository) (roomId memberId : String)
    (h : registryInv repo) :
    registryInv (RoomsService.leaveRoom repo roomId memberId).2 := by
  cases hf : repo.findRoomById roomId with
  | none =>
    simp only [RoomsService.leaveRoom, hf]
    exact h
  | some room =>
    by_cases hm : memberId ∈ room.members
    · have hrid : room.roomId = roomId := (findRoomById_some hf).2
      by_cases hh : memberId = room.hostId
      · subst hh
        intro r hr
        simp only [RoomsService.leaveRoom, hf, hm, if_true,
          RoomsRepository.deleteRoom, RoomsRepository.removeMemberFromRoom,
          List.mem_filter, if_pos rfl] at hr
        obtain ⟨hr1, hr2⟩ := hr
        rcases mem_updateFirst _ _ repo.rooms room hf r hr1 with h1 | h1
        · exact h r h1
        · exfalso
          rw [h1] at hr2
          simp [hrid] at hr2
      · intro r hr
        simp only [RoomsService.leaveRoom, hf, hm, if_true, if_neg hh,
          RoomsRepository.removeMemberFromRoom] at hr
        rcases mem_updateFirst _ _ repo.rooms room hf r hr with h1 | h1
        · exact h r h1
        · rw [h1]
          have hok := h room (findRoomById_some hf).1
          refine ⟨?_, hok.2.erase _⟩
          exact (List.mem_erase_of_ne (fun he => hh he.symm)).mpr hok.1
    · simp only [RoomsService.leaveRoom, hf, hm, if_false]
      exact h

theorem inv_handleUserDisconnect (repo : RoomsRepository) (userId : String)
    (h : registryInv repo) :
    registryInv (RoomsService.handleUserDisconnect repo userId).2 := by
  unfold RoomsService.handleUserDisconnect
  cases hg : repo.getUserRoom userId with
  | none => simpa using h
  | some roomId =>
    have := inv_leaveRoom repo roomId userId h
    simpa [RoomsRepository.deleteUserSocket, RoomsRepository.deleteUserRoom,
      registryInv] using this

/-! ### Facts about `RoomsService.createRoom` used by claim C4 -/

theorem createRoom_fst_roomId (repo : RoomsRepository) (hostId : String) :
    (RoomsService.createRoom repo hostId).1.roomId =
      RoomsService.generateRoomId hostId := by
  cases hf : repo.findRoomById (RoomsService.generateRoomId hostId) with
  | some room =>
    have hrid := (findRoomById_some hf).2
    by_cases hm : hostId ∈ room.members
    · simp [RoomsService.createRoom, hf, hm, hrid]
    · simp [RoomsService.createRoom, hf, hm, hrid]
  | none => simp [RoomsService.createRoom, hf]

theorem createRoom_host_mem (repo : RoomsRepository) (hostId : String) :
    hostId ∈ (RoomsService.createRoom repo hostId).1.members := by
  cases hf : repo.findRoomById (RoomsService.generateRoomId hostId) with
  | some room =>
    by_cases hm : hostId ∈ room.members
    · simp [RoomsService.createRoom, hf, hm]
    · simp [RoomsService.createRoom, hf, hm]
  | none => simp [RoomsService.createRoom, hf]

theorem createRoom_registers (repo : RoomsRepository) (hostId : String) :
    (RoomsService.createRoom repo hostId).2.findRoomById
        (RoomsService.generateRoomId hostId) =
      some (RoomsService.createRoom repo hostId).1 := by
  cases hf : repo.findRoomById (RoomsService.generateRoomId hostId) with
  | some room =>
    by_cases hm : hostId ∈ room.members
    · simp [RoomsService.createRoom, hf, hm]
    · simp only [RoomsService.createRoom, hf, hm, if_false]
      unfold RoomsRepository.findRoomById at hf ⊢
      exact find?_updateFirst_self _ _ repo.rooms room hf
        (by simp [(findRoomById_some hf).2])
  | none =>
    have hnone : repo.rooms.find?
        (fun r => r.roomId = RoomsService.generateRoomId hostId) = none := by
      unfold RoomsRepository.findRoomById at hf
      exact hf
    simp only [RoomsService.createRoom, hf, RoomsRepository.createRoom]
    unfold RoomsRepository.findRoomById
    simp [hnone, List.find?_append]

theorem createRoom_of_found (repo : RoomsRepository) (hostId : String)
    (room : Room)
    (hf : repo.findRoomById (RoomsService.generateRoomId hostId) = some room)
    (hm : hostId ∈ room.members) :
    RoomsService.createRoom repo hostId = (room, repo) := by
  simp [RoomsService.createRoom, hf, hm]

theorem createRoom_mem_rooms (repo : RoomsRepository) (hostId : String) :
    (RoomsService.createRoom repo hostId).1 ∈
      (RoomsService.createRoom repo hostId).2.rooms :=
  (findRoomById_some (createRoom_registers repo hostId)).1

set_option maxRecDepth 20000 in
/-- **C4.** `createRoom(hostId)` returns a room whose `roomId` is
`"room-"` followed by the first 12 hex characters of
`sha256("room-" + hostId)`, and the operation is idempotent: a second
`createRoom(hostId)` leaves the registry unchanged and returns the
already-registered room (same `roomId`) with `hostId` present exactly
once in its members; when the registered room was missing the host, the
host is re-added. -/
theorem c4_createRoom_roomId_idempotent (repo : RoomsRepository)
    (hostId : String) (hinv : registryInv repo) :
    (RoomsService.createRoom repo hostId).1.roomId =
        RoomsService.specRoomId hostId
    ∧ (RoomsService.createRoom (RoomsService.createRoom repo hostId).2
          hostId).1.roomId = (RoomsService.createRoom repo hostId).1.roomId
    ∧ (RoomsService.createRoom (RoomsService.createRoom repo hostId).2
          hostId).2 = (RoomsService.createRoom repo hostId).2
    ∧ RoomsRepository.findRoomById (RoomsService.createRoom repo hostId).2
          (RoomsService.createRoom repo hostId).1.roomId =
        some (RoomsService.createRoom (RoomsService.createRoom repo hostId).2
          hostId).1
    ∧ (RoomsService.createRoom (RoomsService.createRoom repo hostId).2
          hostId).1.members.count hostId = 1
    ∧ (∀ room, repo.findRoomById (RoomsService.generateRoomId hostId) =
          some room → hostId ∉ room.members →
          hostId ∈ (RoomsService.createRoom repo hostId).1.members) := by
  have hreg := createRoom_registers repo hostId
  have hmem := createRoom_host_mem repo hostId
  have hrid := createRoom_fst_roomId repo hostId
  have hsecond : RoomsService.createRoom (RoomsService.createRoom repo hostId).2
      hostId = ((RoomsService.createRoom repo hostId).1,
        (RoomsService.createRoom repo hostId).2) :=
    createRoom_of_found _ hostId _ hreg hmem
  refine ⟨?_, ?_, ?_, ?_, ?_, ?_⟩
  · rw [createRoom_fst_roomId]
    rfl
  · rw [hsecond]
  · rw [hsecond]
  · rw [hsecond, hrid]
    exact hreg
  · rw [hsecond]
    have hinv1 := inv_createRoom repo hostId hinv
    have hok := hinv1 _ (createRoom_mem_rooms repo hostId)
    exact List.count_eq_one_of_mem hok.2 hmem
  · intro room _ _
    exact hmem

set_option maxRecDepth 100000 in
/-- Witness for C4: a concrete host in an empty registry. -/
theorem c4_witness :
    registryInv {} ∧
    ((RoomsService.createRoom {} "h").1.roomId =
        RoomsService.specRoomId "h"
      ∧ (RoomsService.createRoom (RoomsService.createRoom {} "h").2
            "h").1.roomId = (RoomsService.createRoom {} "h").1.roomId
      ∧ (RoomsService.createRoom (RoomsService.createRoom {} "h").2
            "h").2 = (RoomsService.createRoom {} "h").2
      ∧ RoomsRepository.findRoomById (RoomsService.createRoom {} "h").2
            ((RoomsService.createRoom {} "h").1.roomId) =
          some (RoomsService.createRoom (RoomsService.createRoom {} "h").2
            "h").1
      ∧ (RoomsService.createRoom (RoomsService.createRoom {} "h").2
            "h").1.members.count "h" = 1
      ∧ (∀ room, RoomsRepository.findRoomById {} (RoomsService.generateRoomId "h") =
            some room → "h" ∉ room.members →
            "h" ∈ (RoomsService.createRoom {} "h").1.members)) :=
  ⟨by decide, c4_createRoom_roomId_idempotent {} "h" (by decide)⟩

/-! ## `MediasoupService` (embedded from the auto-scaling variant)

State of the media engine facade.  Engine objects (routers, transports,
producers, consumers, workers) are represented by their ids; `close()`
calls are recorded in `closed...` logs.  Worker pids are allocated from
`nextPid`.  `WorkerUsage.lastUpdate` (a wall-clock timestamp used only in
log lines) is omitted.  Real CPU sampling (`worker.getResourceUsage()`)
becomes an oracle `sample : Nat → ℚ` supplied per scaling check. -/

/-- `String.startsWith`, computed on the character lists so that the
kernel can evaluate it. -/
def strStartsWith (s p : String) : Bool := p.data.isPrefixOf s.data

/-- Rational addition through `mkRat` (the kernel evaluates `mkRat`,
unlike `Rat.add`); equal to `+` on `ℚ`. -/
def qAdd (a b : ℚ) : ℚ := mkRat (a.num * b.den + b.num * a.den) (a.den * b.den)

/-- Rational division by a natural number through `mkRat`; equal to
`a / n` for `n ≠ 0`. -/
def qDivNat (a : ℚ) (n : Nat) : ℚ := mkRat a.num (a.den * n)

structure WorkerUsage where
  cpuUsage : ℚ
  routerCount : Nat
  producerCount : Nat
  consumerCount : Nat
  deriving DecidableEq, Repr

structure RoomRouter where
  workerId : Nat
  transports : List String
  producers : List String
  consumers : List String
  deriving DecidableEq, Repr

structure MediasoupService where
  workers : List Nat
  nextWorkerIndex : Nat
  routers : List (String × RoomRouter)
  minWorkers : Nat
  maxWorkers : Nat
  isScaling : Bool
  workerResourceUsage : List (Nat × WorkerUsage)
  nextPid : Nat
  closedTransports : List String
  closedProducers : List String
  closedConsumers : List String
  closedWorkers : List Nat
  deriving DecidableEq, Repr

/-- `Map.set` into a set of ids (`Map` keys are unique, so re-setting an
existing id leaves the id set unchanged). -/
def idSet (l : List String) (x : String) : List String :=
  if x ∈ l then l else l ++ [x]

namespace MediasoupService

/-- scale-up threshold `RESOURCE_USAGE_THRESHOLD = 0.75` -/
def scaleUpThreshold : ℚ := mkRat 3 4

/-- scale-down threshold `SCALE_DOWN_THRESHOLD = 0.3` -/
def scaleDownThreshold : ℚ := mkRat 3 10

/-- `createWorkers`: `maxWorkers = os.cpus().length`,
`minWorkers = min(2, maxWorkers)`; `minWorkers` workers are created (the
all-succeed case; per-worker failure only shrinks the initial pool). -/
def init (cpuCount : Nat) : MediasoupService :=
  let maxW := cpuCount
  let minW := min 2 maxW
  { workers := List.range minW
    nextWorkerIndex := 0
    routers := []
    minWorkers := minW
    maxWorkers := maxW
    isScaling := false
    workerResourceUsage := []
    nextPid := minW
    closedTransports := []
    closedProducers := []
    closedConsumers := []
    closedWorkers := [] }

/-- Router/producer/consumer counts attributed to one worker by
`router.appData.workerId`. -/
def workerCounts (routers : List (String × RoomRouter)) (pid : Nat) :
    Nat × Nat × Nat :=
  routers.foldl
    (fun acc kv =>
      if kv.2.workerId = pid then
        (acc.1 + 1, acc.2.1 + kv.2.producers.length,
          acc.2.2 + kv.2.consumers.length)
      else acc)
    (0, 0, 0)

/-- `updateWorkerResourceMetrics`: refresh the usage entry of every pooled
worker from a fresh CPU sample (normalised to at most `1`). -/
def updateWorkerResourceMetrics (s : MediasoupService) (sample : Nat → ℚ) :
    MediasoupService :=
  let usage' := s.workers.foldl
    (fun u pid =>
      let c := workerCounts s.routers pid
      alSet u pid ⟨min (sample pid) 1, c.1, c.2.1, c.2.2⟩)
    s.workerResourceUsage
  { s with workerResourceUsage := usage' }

structure ResourceUsageSummary where
  maxCpuUsage : ℚ
  avgCpuUsage : ℚ
  maxProducersPerWorker : Nat
  maxConsumersPerWorker : Nat
  totalProducers : Nat
  totalConsumers : Nat
  deriving DecidableEq, Repr

/-- `calculateResourceUsage`: aggregate over the usage map; the average
divides by the pool size (`0` for an empty pool). -/
def calculateResourceUsage (s : MediasoupService) : ResourceUsageSummary :=
  let agg := s.workerResourceUsage.foldl
    (fun (acc : ℚ × ℚ × Nat × Nat × Nat × Nat) kv =>
      (qAdd acc.1 kv.2.cpuUsage, max acc.2.1 kv.2.cpuUsage,
        acc.2.2.1 + kv.2.producerCount, acc.2.2.2.1 + kv.2.consumerCount,
        max acc.2.2.2.2.1 kv.2.producerCount,
        max acc.2.2.2.2.2 kv.2.consumerCount))
    (0, 0, 0, 0, 0, 0)
  { maxCpuUsage := agg.2.1
    avgCpuUsage := if s.workers.length > 0 then qDivNat agg.1 s.workers.length
      else 0
    maxProducersPerWorker := agg.2.2.2.2.1
    maxConsumersPerWorker := agg.2.2.2.2.2
    totalProducers := agg.2.2.1
    totalConsumers := agg.2.2.2.1 }

/-- `checkAndScale`: skip when already scaling; return early when no
routers exist; otherwise sample metrics, then scale up by one worker when
`maxCpuUsage > 0.75` and the pool is below `maxWorkers`, else scale down
by popping (LIFO) and closing one worker when the pool is above
`minWorkers` and `avgCpuUsage < 0.3`.  The `isScaling` flag is restored
by the `finally` block, so a completed sequential call leaves it as it
was.  The scale decision on the refreshed state is `scaleDecide`. -/
def scaleDecide (s1 : MediasoupService) : MediasoupService :=
  if (calculateResourceUsage s1).maxCpuUsage > scaleUpThreshold ∧
      s1.workers.length < s1.maxWorkers then
    { s1 with
      workers := s1.workers ++ [s1.nextPid]
      nextPid := s1.nextPid + 1
      workerResourceUsage := alSet s1.workerResourceUsage s1.nextPid ⟨0, 0, 0, 0⟩ }
  else if s1.workers.length > s1.minWorkers ∧
      (calculateResourceUsage s1).avgCpuUsage < scaleDownThreshold then
    match s1.workers.getLast? with
    | none => s1
    | some last =>
      { s1 with
        workers := s1.workers.dropLast
        workerResourceUsage := alDel s1.workerResourceUsage last
        closedWorkers := s1.closedWorkers ++ [last] }
  else s1

def checkAndScale (s : MediasoupService) (sample : Nat → ℚ) :
    MediasoupService :=
  if s.isScaling then s
  else if s.routers.length = 0 then s
  else scaleDecide (updateWorkerResourceMetrics s sample)

/-- Update the room's router bundle in place. -/
def updRouter (s : MediasoupService) (roomId : String)
    (f : RoomRouter → RoomRouter) : MediasoupService :=
  let routers' := updateFirst (fun kv => kv.1 = roomId)
    (fun kv => (kv.1, f kv.2)) s.routers
  { s with routers := routers' }

/-- `createRouter`: reuse an existing bundle, otherwise place a new router
on the round-robin worker and trigger a scaling check. -/
def createRouter (s : MediasoupService) (roomId : String)
    (sample : Nat → ℚ) : MediasoupService :=
  match alGet s.routers roomId with
  | some _ => s
  | none =>
    let wid := s.workers.getD s.nextWorkerIndex 0
    let s1 := { s with
      nextWorkerIndex := (s.nextWorkerIndex + 1) % s.workers.length
      routers := alSet s.routers roomId ⟨wid, [], [], []⟩ }
    checkAndScale s1 sample

/-- `createWebRtcTransport`: store the transport under the caller-chosen
id; `false` when no router bundle exists. -/
def createWebRtcTransport (s : MediasoupService)
    (roomId transportId : String) : MediasoupService × Bool :=
  match alGet s.routers roomId with
  | none => (s, false)
  | some _ =>
    (updRouter s roomId
      (fun rr => { rr with transports := idSet rr.transports transportId }), true)

/-- `connectTransport` completes DTLS on an existing transport; it does
not change any map. -/
def connectTransport (s : MediasoupService) (roomId transportId : String) :
    MediasoupService × Bool :=
  match alGet s.routers roomId with
  | none => (s, false)
  | some rr => (s, transportId ∈ rr.transports)

/-- `produce`: store the engine-assigned producer id (oracle argument). -/
def produce (s : MediasoupService)
    (roomId transportId producerId : String) :
    MediasoupService × Option String :=
  match alGet s.routers roomId with
  | none => (s, none)
  | some rr =>
    if transportId ∈ rr.transports then
      (updRouter s roomId
        (fun rr => { rr with producers := idSet rr.producers producerId }),
        some producerId)
    else (s, none)

/-- `consume`: store the engine-assigned consumer id; `canConsume` is the
engine's codec-compatibility verdict (oracle argument). -/
def consume (s : MediasoupService)
    (roomId transportId producerId consumerId : String)
    (canConsume : Bool) : MediasoupService × Option String :=
  match alGet s.routers roomId with
  | none => (s, none)
  | some rr =>
    if transportId ∈ rr.transports then
      if producerId ∈ rr.producers then
        if canConsume then
          (updRouter s roomId
            (fun rr => { rr with consumers := idSet rr.consumers consumerId }),
            some consumerId)
        else (s, none)
      else (s, none)
    else (s, none)

/-- `resumeConsumer`: unpause only; no map change. -/
def resumeConsumer (s : MediasoupService) (roomId consumerId : String) :
    MediasoupService × Bool :=
  match alGet s.routers roomId with
  | none => (s, false)
  | some rr => (s, consumerId ∈ rr.consumers)

def getProducers (s : MediasoupService) (roomId : String) : List String :=
  match alGet s.routers roomId with
  | none => []
  | some rr => rr.producers

/-- `closeProducer`: close and remove one producer if present. -/
def closeProducer (s : MediasoupService) (roomId producerId : String) :
    MediasoupService :=
  match alGet s.routers roomId with
  | none => s
  | some rr =>
    if producerId ∈ rr.producers then
      { updRouter s roomId
          (fun rr => { rr with producers := rr.producers.filter (· ≠ producerId) })
        with closedProducers := s.closedProducers ++ [producerId] }
    else s

/-- `closeTransport`: close and remove one transport if present. -/
def closeTransport (s : MediasoupService) (roomId transportId : String) :
    MediasoupService :=
  match alGet s.routers roomId with
  | none => s
  | some rr =>
    if transportId ∈ rr.transports then
      { updRouter s roomId
          (fun rr => { rr with transports := rr.transports.filter (· ≠ transportId) })
        with closedTransports := s.closedTransports ++ [transportId] }
    else s

/-- `cleanupUserMedia`: close and remove every transport whose id starts
with `oldSocketId`; when at least one was removed, also close ALL
producers of the room and clear the producer map, returning the closed
producer ids. -/
def cleanupUserMedia (s : MediasoupService) (roomId oldSocketId : String) :
    List String × MediasoupService :=
  match alGet s.routers roomId with
  | none => ([], s)
  | some rr =>
    let transportsToDelete := rr.transports.filter
      (fun t => strStartsWith t oldSocketId)
    let kept := rr.transports.filter (fun t => ¬ strStartsWith t oldSocketId)
    let anyClosed := transportsToDelete.length > 0
    let closedProducerIds := if anyClosed then rr.producers else []
    let s1 := updRouter s roomId (fun rr => { rr with
      transports := kept
      producers := if anyClosed then [] else rr.producers })
    (closedProducerIds,
      { s1 with
        closedTransports := s1.closedTransports ++ transportsToDelete
        closedProducers := s1.closedProducers ++ closedProducerIds })

/-- `closeRoom`: close all consumers, producers and transports, close the
router, remove the bundle and trigger a scaling check. -/
def closeRoom (s : MediasoupService) (roomId : String) (sample : Nat → ℚ) :
    MediasoupService :=
  match alGet s.routers roomId with
  | none => s
  | some rr =>
    let s1 := { s with
      routers := alDel s.routers roomId
      closedConsumers := s.closedConsumers ++ rr.consumers
      closedProducers := s.closedProducers ++ rr.producers
      closedTransports := s.closedTransports ++ rr.transports }
    checkAndScale s1 sample

end MediasoupService

/-- The facade operations driven by the signaling layer; fresh engine ids
and CPU samples are oracle arguments. -/
inductive MsOp where
  | createRouter (roomId : String) (sample : Nat → ℚ)
  | createWebRtcTransport (roomId transportId : String)
  | connectTransport (roomId transportId : String)
  | produce (roomId transportId producerId : String)
  | consume (roomId transportId producerId consumerId : String)
      (canConsume : Bool)
  | resumeConsumer (roomId consumerId : String)
  | closeProducer (roomId producerId : String)
  | closeTransport (roomId transportId : String)
  | cleanupUserMedia (roomId oldSocketId : String)
  | closeRoom (roomId : String) (sample : Nat → ℚ)

def MsOp.apply (s : MediasoupService) : MsOp → MediasoupService
  | .createRouter roomId sample => s.createRouter roomId sample
  | .createWebRtcTransport roomId transportId =>
      (s.createWebRtcTransport roomId transportId).1
  | .connectTransport roomId transportId =>
      (s.connectTransport roomId transportId).1
  | .produce roomId transportId producerId =>
      (s.produce roomId transportId producerId).1
  | .consume roomId transportId producerId consumerId canConsume =>
      (s.consume roomId transportId producerId consumerId canConsume).1
  | .resumeConsumer roomId consumerId =>
      (s.resumeConsumer roomId consumerId).1
  | .closeProducer roomId producerId => s.closeProducer roomId producerId
  | .closeTransport roomId transportId => s.closeTransport roomId transportId
  | .cleanupUserMedia roomId oldSocketId =>
      (s.cleanupUserMedia roomId oldSocketId).2
  | .closeRoom roomId sample => s.closeRoom roomId sample

def MsOp.isCloseRoom : MsOp → Bool
  | .closeRoom _ _ => true
  | _ => false

def msRun (s : MediasoupService) (ops : List MsOp) : MediasoupService :=
  ops.foldl MsOp.apply s

/-! ### Association-list lemmas -/

theorem alSet_cons_self [DecidableEq κ] (x : κ × α) (xs : List (κ × α))
    (k : κ) (v : α) (h : x.1 = k) :
    alSet (x :: xs) k v = (k, v) :: xs := by
  unfold alSet
  rw [List.find?_cons_of_pos _ (by simp [h])]
  simp [updateFirst, h]

theorem alSet_cons_ne [DecidableEq κ] (x : κ × α) (xs : List (κ × α))
    (k : κ) (v : α) (h : ¬ x.1 = k) :
    alSet (x :: xs) k v = x :: alSet xs k v := by
  unfold alSet
  rw [List.find?_cons_of_neg _ (by simp [h])]
  by_cases hs : (xs.find? (fun kv => kv.1 = k)).isSome
  · simp [hs, updateFirst, h]
  · simp [hs]

theorem alGet_cons_self [DecidableEq κ] (x : κ × α) (xs : List (κ × α))
    (k : κ) (h : x.1 = k) : alGet (x :: xs) k = some x.2 := by
  unfold alGet
  rw [List.find?_cons_of_pos _ (by simp [h])]
  rfl

theorem alGet_cons_ne [DecidableEq κ] (x : κ × α) (xs : List (κ × α))
    (k : κ) (h : ¬ x.1 = k) : alGet (x :: xs) k = alGet xs k := by
  unfold alGet
  rw [List.find?_cons_of_neg _ (by simp [h])]

theorem alGet_alSet_self [DecidableEq κ] (l : List (κ × α)) (k : κ) (v : α) :
    alGet (alSet l k v) k = some v := by
  induction l with
  | nil => simp [alSet, alGet]
  | cons x xs ih =>
    by_cases hx : x.1 = k
    · rw [alSet_cons_self x xs k v hx, alGet_cons_self _ _ _ rfl]
    · rw [alSet_cons_ne x xs k v hx, alGet_cons_ne _ _ _ hx]
      exact ih

theorem alGet_alSet_ne [DecidableEq κ] (l : List (κ × α)) (k k' : κ) (v : α)
    (h : ¬ k' = k) : alGet (alSet l k v) k' = alGet l k' := by
  have hkk : ¬ k = k' := fun he => h (Eq.symm he)
  induction l with
  | nil => simp [alSet, alGet, hkk]
  | cons x xs ih =>
    by_cases hx : x.1 = k
    · rw [alSet_cons_self x xs k v hx,
        alGet_cons_ne _ _ _ (by simpa using hkk),
        alGet_cons_ne _ _ _ (by rw [hx]; exact hkk)]
    · by_cases hx' : x.1 = k'
      · rw [alSet_cons_ne x xs k v hx, alGet_cons_self _ _ _ hx',
          alGet_cons_self _ _ _ hx']
      · rw [alSet_cons_ne x xs k v hx, alGet_cons_ne _ _ _ hx',
          alGet_cons_ne _ _ _ hx']
        exact ih

theorem alGet_alDel_self [DecidableEq κ] (l : List (κ × α)) (k : κ) :
    alGet (alDel l k) k = none := by
  unfold alGet alDel
  rw [Option.map_eq_none', List.find?_eq_none]
  intro x hx
  simp only [List.mem_filter] at hx
  simpa using hx.2

theorem alGet_alDel_ne [DecidableEq κ] (l : List (κ × α)) (k k' : κ)
    (h : ¬ k' = k) : alGet (alDel l k) k' = alGet l k' := by
  induction l with
  | nil => simp [alDel]
  | cons x xs ih =>
    by_cases hx : x.1 = k
    · have : alDel (x :: xs) k = alDel xs k := by
        simp [alDel, hx]
      rw [this, ih, alGet_cons_ne _ _ _ (by rw [hx]; exact fun he => h (Eq.symm he))]
    · have : alDel (x :: xs) k = x :: alDel xs k := by
        simp [alDel, hx]
      rw [this]
      by_cases hx' : x.1 = k'
      · rw [alGet_cons_self _ _ _ hx', alGet_cons_self _ _ _ hx']
      · rw [alGet_cons_ne _ _ _ hx', alGet_cons_ne _ _ _ hx']
        exact ih

theorem updateFirst_cons_pos (p : α → Bool) (f : α → α) (x : α)
    (xs : List α) (h : p x) : updateFirst p f (x :: xs) = f x :: xs := by
  simp [updateFirst, h]

theorem updateFirst_cons_neg (p : α → Bool) (f : α → α) (x : α)
    (xs : List α) (h : ¬ p x) :
    updateFirst p f (x :: xs) = x :: updateFirst p f xs := by
  simp [updateFirst, h]

theorem updateFirst_of_find?_none (p : α → Bool) (f : α → α) (l : List α)
    (h : l.find? p = none) : updateFirst p f l = l := by
  induction l with
  | nil => rfl
  | cons x xs ih =>
    by_cases hx : p x
    · rw [List.find?_cons_of_pos _ hx] at h; cases h
    · rw [List.find?_cons_of_neg _ hx] at h
      rw [updateFirst_cons_neg _ _ _ _ hx, ih h]

theorem alGet_mapFirst_self [DecidableEq κ] (l : List (κ × α)) (k : κ)
    (f : α → α) (v : α) (h : alGet l k = some v) :
    alGet (updateFirst (fun kv => kv.1 = k) (fun kv => (kv.1, f kv.2)) l) k =
      some (f v) := by
  induction l with
  | nil => simp [alGet] at h
  | cons x xs ih =>
    by_cases hx : x.1 = k
    · rw [alGet_cons_self _ _ _ hx] at h
      injection h with h
      rw [updateFirst_cons_pos _ _ _ _ (by simp [hx])]
      rw [alGet_cons_self (x.1, f x.2) xs k (by exact hx), h]
    · rw [alGet_cons_ne _ _ _ hx] at h
      rw [updateFirst_cons_neg _ _ _ _ (by simp [hx])]
      rw [alGet_cons_ne _ _ _ hx]
      exact ih h

theorem alGet_mapFirst_ne [DecidableEq κ] (l : List (κ × α)) (k k' : κ)
    (f : α → α) (h : ¬ k' = k) :
    alGet (updateFirst (fun kv => kv.1 = k) (fun kv => (kv.1, f kv.2)) l) k' =
      alGet l k' := by
  induction l with
  | nil => rfl
  | cons x xs ih =>
    by_cases hx : x.1 = k
    · rw [updateFirst_cons_pos _ _ _ _ (by simp [hx])]
      by_cases hx' : x.1 = k'
      · exact absurd ((Eq.symm hx').trans hx) h
      · rw [alGet_cons_ne (x.1, f x.2) xs k' (by exact hx'),
          alGet_cons_ne _ _ _ hx']
    · rw [updateFirst_cons_neg _ _ _ _ (by simp [hx])]
      by_cases hx' : x.1 = k'
      · rw [alGet_cons_self _ _ _ hx', alGet_cons_self _ _ _ hx']
      · rw [alGet_cons_ne _ _ _ hx', alGet_cons_ne _ _ _ hx']
        exact ih

/-! ### Frame and bound lemmas for the worker pool -/

namespace MediasoupService

@[simp] theorem updateMetrics_workers (s : MediasoupService) (sample : Nat → ℚ) :
    (s.updateWorkerResourceMetrics sample).workers = s.workers := rfl

@[simp] theorem updateMetrics_routers (s : MediasoupService) (sample : Nat → ℚ) :
    (s.updateWorkerResourceMetrics sample).routers = s.routers := rfl

@[simp] theorem updateMetrics_minWorkers (s : MediasoupService) (sample : Nat → ℚ) :
    (s.updateWorkerResourceMetrics sample).minWorkers = s.minWorkers := rfl

@[simp] theorem updateMetrics_maxWorkers (s : MediasoupService) (sample : Nat → ℚ) :
    (s.updateWorkerResourceMetrics sample).maxWorkers = s.maxWorkers := rfl

@[simp] theorem updateMetrics_nextPid (s : MediasoupService) (sample : Nat → ℚ) :
    (s.updateWorkerResourceMetrics sample).nextPid = s.nextPid := rfl

@[simp] theorem updateMetrics_closedConsumers (s : MediasoupService)
    (sample : Nat → ℚ) :
    (s.updateWorkerResourceMetrics sample).closedConsumers = s.closedConsumers := rfl

@[simp] theorem updateMetrics_closedProducers (s : MediasoupService)
    (sample : Nat → ℚ) :
    (s.updateWorkerResourceMetrics sample).closedProducers = s.closedProducers := rfl

@[simp] theorem updateMetrics_closedTransports (s : MediasoupService)
    (sample : Nat → ℚ) :
    (s.updateWorkerResourceMetrics sample).closedTransports = s.closedTransports := rfl

@[simp] theorem updateMetrics_closedWorkers (s : MediasoupService)
    (sample : Nat → ℚ) :
    (s.updateWorkerResourceMetrics sample).closedWorkers = s.closedWorkers := rfl

@[simp] theorem updRouter_workers (s : MediasoupService) (roomId : String)
    (f : RoomRouter → RoomRouter) : (s.updRouter roomId f).workers = s.workers := rfl

@[simp] theorem updRouter_minWorkers (s : MediasoupService) (roomId : String)
    (f : RoomRouter → RoomRouter) :
    (s.updRouter roomId f).minWorkers = s.minWorkers := rfl

@[simp] theorem updRouter_maxWorkers (s : MediasoupService) (roomId : String)
    (f : RoomRouter → RoomRouter) :
    (s.updRouter roomId f).maxWorkers = s.maxWorkers := rfl

@[simp] theorem updRouter_closedConsumers (s : MediasoupService) (roomId : String)
    (f : RoomRouter → RoomRouter) :
    (s.updRouter roomId f).closedConsumers = s.closedConsumers := rfl

@[simp] theorem updRouter_closedProducers (s : MediasoupService) (roomId : String)
    (f : RoomRouter → RoomRouter) :
    (s.updRouter roomId f).closedProducers = s.closedProducers := rfl

@[simp] theorem updRouter_closedTransports (s : MediasoupService) (roomId : String)
    (f : RoomRouter → RoomRouter) :
    (s.updRouter roomId f).closedTransports = s.closedTransports := rfl

@[simp] theorem updRouter_routers (s : MediasoupService) (roomId : String)
    (f : RoomRouter → RoomRouter) :
    (s.updRouter roomId f).routers =
      updateFirst (fun kv => kv.1 = roomId) (fun kv => (kv.1, f kv.2)) s.routers := rfl

theorem scaleDecide_cases (s1 : MediasoupService) :
    (scaleDecide s1 = { s1 with
        workers := s1.workers ++ [s1.nextPid]
        nextPid := s1.nextPid + 1
        workerResourceUsage := alSet s1.workerResourceUsage s1.nextPid ⟨0, 0, 0, 0⟩ }
      ∧ (calculateResourceUsage s1).maxCpuUsage > scaleUpThreshold
      ∧ s1.workers.length < s1.maxWorkers)
    ∨ (∃ last, s1.workers.getLast? = some last
      ∧ scaleDecide s1 = { s1 with
          workers := s1.workers.dropLast
          workerResourceUsage := alDel s1.workerResourceUsage last
          closedWorkers := s1.closedWorkers ++ [last] }
      ∧ ¬ ((calculateResourceUsage s1).maxCpuUsage > scaleUpThreshold
            ∧ s1.workers.length < s1.maxWorkers)
      ∧ s1.minWorkers < s1.workers.length
      ∧ (calculateResourceUsage s1).avgCpuUsage < scaleDownThreshold)
    ∨ (scaleDecide s1 = s1
      ∧ ¬ ((calculateResourceUsage s1).maxCpuUsage > scaleUpThreshold
            ∧ s1.workers.length < s1.maxWorkers)) := by
  unfold scaleDecide
  by_cases hup : (calculateResourceUsage s1).maxCpuUsage > scaleUpThreshold ∧
      s1.workers.length < s1.maxWorkers
  · exact Or.inl ⟨by rw [if_pos hup], hup.1, hup.2⟩
  · rw [if_neg hup]
    by_cases hdown : s1.workers.length > s1.minWorkers ∧
        (calculateResourceUsage s1).avgCpuUsage < scaleDownThreshold
    · rw [if_pos hdown]
      cases hlast : s1.workers.getLast? with
      | none => exact Or.inr (Or.inr ⟨rfl, hup⟩)
      | some last =>
        exact Or.inr (Or.inl ⟨last, rfl, rfl, hup, hdown.1, hdown.2⟩)
    · rw [if_neg hdown]
      exact Or.inr (Or.inr ⟨rfl, hup⟩)

theorem checkAndScale_cases (s : MediasoupService) (sample : Nat → ℚ) :
    s.checkAndScale sample = s
    ∨ s.checkAndScale sample = scaleDecide (s.updateWorkerResourceMetrics sample) := by
  unfold checkAndScale
  by_cases hscal : s.isScaling = true
  · rw [if_pos hscal]; exact Or.inl rfl
  · rw [if_neg hscal]
    by_cases hempty : s.routers.length = 0
    · rw [if_pos hempty]; exact Or.inl rfl
    · rw [if_neg hempty]; exact Or.inr rfl

theorem scaleDecide_frame (s1 : MediasoupService) :
    (scaleDecide s1).routers = s1.routers
    ∧ (scaleDecide s1).minWorkers = s1.minWorkers
    ∧ (scaleDecide s1).maxWorkers = s1.maxWorkers
    ∧ (scaleDecide s1).closedConsumers = s1.closedConsumers
    ∧ (scaleDecide s1).closedProducers = s1.closedProducers
    ∧ (scaleDecide s1).closedTransports = s1.closedTransports := by
  rcases scaleDecide_cases s1 with ⟨h, _⟩ | ⟨last, _, h, _⟩ | ⟨h, _⟩ <;>
    rw [h] <;> exact ⟨rfl, rfl, rfl, rfl, rfl, rfl⟩

theorem checkAndScale_frame (s : MediasoupService) (sample : Nat → ℚ) :
    (s.checkAndScale sample).routers = s.routers
    ∧ (s.checkAndScale sample).minWorkers = s.minWorkers
    ∧ (s.checkAndScale sample).maxWorkers = s.maxWorkers
    ∧ (s.checkAndScale sample).closedConsumers = s.closedConsumers
    ∧ (s.checkAndScale sample).closedProducers = s.closedProducers
    ∧ (s.checkAndScale sample).closedTransports = s.closedTransports := by
  rcases checkAndScale_cases s sample with h | h
  · rw [h]; exact ⟨rfl, rfl, rfl, rfl, rfl, rfl⟩
  · rw [h]
    have := scaleDecide_frame (s.updateWorkerResourceMetrics sample)
    simpa using this

theorem scaleDecide_bounds (s1 : MediasoupService)
    (h1 : s1.minWorkers ≤ s1.workers.length)
    (h2 : s1.workers.length ≤ s1.maxWorkers) :
    s1.minWorkers ≤ (scaleDecide s1).workers.length
    ∧ (scaleDecide s1).workers.length ≤ s1.maxWorkers := by
  rcases scaleDecide_cases s1 with ⟨h, _, hlt⟩ | ⟨last, _, h, _, hgt, _⟩ | ⟨h, _⟩ <;>
      rw [h]
  · simp only [List.length_append, List.length_singleton]
    omega
  · simp only [List.length_dropLast]
    omega
  · exact ⟨h1, h2⟩

theorem checkAndScale_bounds (s : MediasoupService) (sample : Nat → ℚ)
    (h1 : s.minWorkers ≤ s.workers.length)
    (h2 : s.workers.length ≤ s.maxWorkers) :
    s.minWorkers ≤ (s.checkAndScale sample).workers.length
    ∧ (s.checkAndScale sample).workers.length ≤ s.maxWorkers := by
  rcases checkAndScale_cases s sample with h | h <;> rw [h]
  · exact ⟨h1, h2⟩
  · have := scaleDecide_bounds (s.updateWorkerResourceMetrics sample)
      (by simpa using h1) (by simpa using h2)
    simpa using this

end MediasoupService

namespace MediasoupService

theorem scaleDecide_up (s1 : MediasoupService)
    (h : (calculateResourceUsage s1).maxCpuUsage > scaleUpThreshold ∧
      s1.workers.length < s1.maxWorkers) :
    scaleDecide s1 = { s1 with
      workers := s1.workers ++ [s1.nextPid]
      nextPid := s1.nextPid + 1
      workerResourceUsage := alSet s1.workerResourceUsage s1.nextPid ⟨0, 0, 0, 0⟩ } := by
  unfold scaleDecide
  rw [if_pos h]

theorem scaleDecide_down (s1 : MediasoupService)
    (hnup : ¬ ((calculateResourceUsage s1).maxCpuUsage > scaleUpThreshold ∧
      s1.workers.length < s1.maxWorkers))
    (hdown : s1.workers.length > s1.minWorkers ∧
      (calculateResourceUsage s1).avgCpuUsage < scaleDownThreshold) :
    ∃ last, s1.workers.getLast? = some last
      ∧ scaleDecide s1 = { s1 with
          workers := s1.workers.dropLast
          workerResourceUsage := alDel s1.workerResourceUsage last
          closedWorkers := s1.closedWorkers ++ [last] } := by
  unfold scaleDecide
  rw [if_neg hnup, if_pos hdown]
  cases hlast : s1.workers.getLast? with
  | none =>
    exfalso
    have : s1.workers = [] := by
      cases hw : s1.workers with
      | nil => rfl
      | cons a as =>
        rw [hw] at hlast
        simp [List.getLast?] at hlast
    rw [this] at hdown
    simp at hdown
  | some last => exact ⟨last, rfl, rfl⟩

theorem scaleDecide_noop (s1 : MediasoupService)
    (hnup : ¬ ((calculateResourceUsage s1).maxCpuUsage > scaleUpThreshold ∧
      s1.workers.length < s1.maxWorkers))
    (hndown : ¬ (s1.workers.length > s1.minWorkers ∧
      (calculateResourceUsage s1).avgCpuUsage < scaleDownThreshold)) :
    scaleDecide s1 = s1 := by
  unfold scaleDecide
  rw [if_neg hnup, if_neg hndown]

theorem checkAndScale_no_rooms (s : MediasoupService) (sample : Nat → ℚ)
    (h : s.routers.length = 0) : s.checkAndScale sample = s := by
  unfold checkAndScale
  by_cases hscal : s.isScaling = true
  · rw [if_pos hscal]
  · rw [if_neg hscal, if_pos h]

theorem checkAndScale_pool (s : MediasoupService) (sample : Nat → ℚ)
    (h1 : s.minWorkers ≤ s.workers.length)
    (h2 : s.workers.length ≤ s.maxWorkers) :
    (s.checkAndScale sample).minWorkers = s.minWorkers
    ∧ (s.checkAndScale sample).maxWorkers = s.maxWorkers
    ∧ (s.checkAndScale sample).minWorkers ≤ (s.checkAndScale sample).workers.length
    ∧ (s.checkAndScale sample).workers.length ≤ (s.checkAndScale sample).maxWorkers := by
  obtain ⟨_, hmin, hmax, _, _, _⟩ := checkAndScale_frame s sample
  obtain ⟨b1, b2⟩ := checkAndScale_bounds s sample h1 h2
  exact ⟨hmin, hmax, by rw [hmin]; exact b1, by rw [hmax]; exact b2⟩

end MediasoupService

/-- Every facade operation keeps `minWorkers`/`maxWorkers` fixed and the
pool size inside `[minWorkers, maxWorkers]`. -/
theorem MsOp.apply_pool (s : MediasoupService) (op : MsOp)
    (h1 : s.minWorkers ≤ s.workers.length)
    (h2 : s.workers.length ≤ s.maxWorkers) :
    (op.apply s).minWorkers = s.minWorkers
    ∧ (op.apply s).maxWorkers = s.maxWorkers
    ∧ (op.apply s).minWorkers ≤ (op.apply s).workers.length
    ∧ (op.apply s).workers.length ≤ (op.apply s).maxWorkers := by
  cases op with
  | createRouter roomId sample =>
    simp only [MsOp.apply, MediasoupService.createRouter]
    cases halg : alGet s.routers roomId with
    | some rr => exact ⟨by simp, by simp, by simpa using h1, by simpa using h2⟩
    | none => exact MediasoupService.checkAndScale_pool _ _ h1 h2
  | createWebRtcTransport roomId transportId =>
    simp only [MsOp.apply, MediasoupService.createWebRtcTransport]
    cases halg : alGet s.routers roomId with
    | some rr => exact ⟨by simp, by simp, by simpa using h1, by simpa using h2⟩
    | none => exact ⟨by simp, by simp, by simpa using h1, by simpa using h2⟩
  | connectTransport roomId transportId =>
    simp only [MsOp.apply, MediasoupService.connectTransport]
    cases halg : alGet s.routers roomId with
    | some rr => exact ⟨by simp, by simp, by simpa using h1, by simpa using h2⟩
    | none => exact ⟨by simp, by simp, by simpa using h1, by simpa using h2⟩
  | produce roomId transportId producerId =>
    simp only [MsOp.apply, MediasoupService.produce]
    cases halg : alGet s.routers roomId with
    | some rr =>
      by_cases ht : transportId ∈ rr.transports
      · simp only [ht, if_true]
        exact ⟨by simp, by simp, by simpa using h1, by simpa using h2⟩
      · simp only [ht, if_false]
        exact ⟨by simp, by simp, by simpa using h1, by simpa using h2⟩
    | none => exact ⟨by simp, by simp, by simpa using h1, by simpa using h2⟩
  | consume roomId transportId producerId consumerId canConsume =>
    simp only [MsOp.apply, MediasoupService.consume]
    cases halg : alGet s.routers roomId with
    | some rr =>
      by_cases ht : transportId ∈ rr.transports
      · by_cases hp : producerId ∈ rr.producers
        · cases canConsume with
          | true =>
            simp only [ht, hp, if_true]
            exact ⟨by simp, by simp, by simpa using h1, by simpa using h2⟩
          | false =>
            simp only [ht, hp, if_true, if_false]
            exact ⟨by simp, by simp, by simpa using h1, by simpa using h2⟩
        · simp only [ht, hp, if_true, if_false]
          exact ⟨by simp, by simp, by simpa using h1, by simpa using h2⟩
      · simp only [ht, if_false]
        exact ⟨by simp, by simp, by simpa using h1, by simpa using h2⟩
    | none => exact ⟨by simp, by simp, by simpa using h1, by simpa using h2⟩
  | resumeConsumer roomId consumerId =>
    simp only [MsOp.apply, MediasoupService.resumeConsumer]
    cases halg : alGet s.routers roomId with
    | some rr => exact ⟨by simp, by simp, by simpa using h1, by simpa using h2⟩
    | none => exact ⟨by simp, by simp, by simpa using h1, by simpa using h2⟩
  | closeProducer roomId producerId =>
    simp only [MsOp.apply, MediasoupService.closeProducer]
    cases halg : alGet s.routers roomId with
    | some rr =>
      by_cases hp : producerId ∈ rr.producers
      · simp only [hp, if_true]
        exact ⟨by simp, by simp, by simpa using h1, by simpa using h2⟩
      · simp only [hp, if_false]
        exact ⟨by simp, by simp, by simpa using h1, by simpa using h2⟩
    | none => exact ⟨by simp, by simp, by simpa using h1, by simpa using h2⟩
  | closeTransport roomId transportId =>
    simp only [MsOp.apply, MediasoupService.closeTransport]
    cases halg : alGet s.routers roomId with
    | some rr =>
      by_cases ht : transportId ∈ rr.transports
      · simp only [ht, if_true]
        exact ⟨by simp, by simp, by simpa using h1, by simpa using h2⟩
      · simp only [ht, if_false]
        exact ⟨by simp, by simp, by simpa using h1, by simpa using h2⟩
    | none => exact ⟨by simp, by simp, by simpa using h1, by simpa using h2⟩
  | cleanupUserMedia roomId oldSocketId =>
    simp only [MsOp.apply, MediasoupService.cleanupUserMedia]
    cases halg : alGet s.routers roomId with
    | some rr => exact ⟨by simp, by simp, by simpa using h1, by simpa using h2⟩
    | none => exact ⟨by simp, by simp, by simpa using h1, by simpa using h2⟩
  | closeRoom roomId sample =>
    simp only [MsOp.apply, MediasoupService.closeRoom]
    cases halg : alGet s.routers roomId with
    | some rr => exact MediasoupService.checkAndScale_pool _ _ h1 h2
    | none => exact ⟨by simp, by simp, by simpa using h1, by simpa using h2⟩

theorem msRun_pool (ops : List MsOp) : ∀ s : MediasoupService,
    s.minWorkers ≤ s.workers.length → s.workers.length ≤ s.maxWorkers →
    (msRun s ops).minWorkers = s.minWorkers
    ∧ (msRun s ops).maxWorkers = s.maxWorkers
    ∧ (msRun s ops).minWorkers ≤ (msRun s ops).workers.length
    ∧ (msRun s ops).workers.length ≤ (msRun s ops).maxWorkers := by
  induction ops with
  | nil => exact fun s h1 h2 => ⟨rfl, rfl, h1, h2⟩
  | cons op rest ih =>
    intro s h1 h2
    obtain ⟨e1, e2, b1, b2⟩ := MsOp.apply_pool s op h1 h2
    obtain ⟨f1, f2, c1, c2⟩ := ih (op.apply s) b1 b2
    refine ⟨?_, ?_, c1, c2⟩
    · show (msRun (op.apply s) rest).minWorkers = s.minWorkers
      rw [f1, e1]
    · show (msRun (op.apply s) rest).maxWorkers = s.maxWorkers
      rw [f2, e2]

/-- **C7.** Starting from a pool of `minWorkers = min(2, cpuCount)` workers
with `maxWorkers = cpuCount`: the pool size never leaves
`[minWorkers, maxWorkers]` under any sequence of facade operations
(`createRouter`/`closeRoom` included); a scaling check on a state with no
rooms returns it unchanged; the scale decision adds exactly one worker
exactly when the maximum per-worker CPU usage exceeds `0.75` and the pool
is below `maxWorkers`; otherwise it removes exactly one worker — popped
LIFO and closed — exactly when the pool is above `minWorkers` and the
average CPU usage is below `0.3`; otherwise it changes nothing. -/
theorem c7_worker_pool_autoscaling (cpuCount : Nat) (ops : List MsOp)
    (s s1 : MediasoupService) (sample : Nat → ℚ) :
    ((MediasoupService.init cpuCount).workers.length = min 2 cpuCount
      ∧ (MediasoupService.init cpuCount).minWorkers = min 2 cpuCount
      ∧ (MediasoupService.init cpuCount).maxWorkers = cpuCount)
    ∧ (min 2 cpuCount ≤
        (msRun (MediasoupService.init cpuCount) ops).workers.length
      ∧ (msRun (MediasoupService.init cpuCount) ops).workers.length ≤ cpuCount)
    ∧ (s.routers.length = 0 → s.checkAndScale sample = s)
    ∧ (((MediasoupService.calculateResourceUsage s1).maxCpuUsage >
          MediasoupService.scaleUpThreshold ∧
        s1.workers.length < s1.maxWorkers) →
        MediasoupService.scaleDecide s1 = { s1 with
          workers := s1.workers ++ [s1.nextPid]
          nextPid := s1.nextPid + 1
          workerResourceUsage :=
            alSet s1.workerResourceUsage s1.nextPid ⟨0, 0, 0, 0⟩ })
    ∧ ((¬ ((MediasoupService.calculateResourceUsage s1).maxCpuUsage >
            MediasoupService.scaleUpThreshold ∧
          s1.workers.length < s1.maxWorkers)) →
        (s1.workers.length > s1.minWorkers ∧
          (MediasoupService.calculateResourceUsage s1).avgCpuUsage <
            MediasoupService.scaleDownThreshold) →
        ∃ last, s1.workers.getLast? = some last
          ∧ MediasoupService.scaleDecide s1 = { s1 with
              workers := s1.workers.dropLast
              workerResourceUsage := alDel s1.workerResourceUsage last
              closedWorkers := s1.closedWorkers ++ [last] })
    ∧ ((¬ ((MediasoupService.calculateResourceUsage s1).maxCpuUsage >
            MediasoupService.scaleUpThreshold ∧
          s1.workers.length < s1.maxWorkers)) →
        (¬ (s1.workers.length > s1.minWorkers ∧
          (MediasoupService.calculateResourceUsage s1).avgCpuUsage <
            MediasoupService.scaleDownThreshold)) →
        MediasoupService.scaleDecide s1 = s1) := by
  have hinit1 : (MediasoupService.init cpuCount).workers.length = min 2 cpuCount := by
    simp [MediasoupService.init]
  have hpool := msRun_pool ops (MediasoupService.init cpuCount)
    (by rw [hinit1]; simp [MediasoupService.init])
    (by rw [hinit1]; simp [MediasoupService.init])
  refine ⟨⟨hinit1, rfl, rfl⟩, ⟨?_, ?_⟩, ?_, ?_, ?_, ?_⟩
  · have := hpool.2.2.1
    rw [hpool.1] at this
    simpa [MediasoupService.init] using this
  · have := hpool.2.2.2
    rw [hpool.2.1] at this
    simpa [MediasoupService.init] using this
  · exact fun h => MediasoupService.checkAndScale_no_rooms s sample h
  · exact fun h => MediasoupService.scaleDecide_up s1 h
  · exact fun hnup hdown => MediasoupService.scaleDecide_down s1 hnup hdown
  · exact fun hnup hndown => MediasoupService.scaleDecide_noop s1 hnup hndown

/-- A concrete scaling state: two workers, one room, one busy worker. -/
def c7state : MediasoupService :=
  { MediasoupService.init 4 with
    routers := [("R", ⟨0, [], [], []⟩)]
    workerResourceUsage := [(0, ⟨mkRat 1 1, 1, 0, 0⟩), (1, ⟨0, 0, 0, 0⟩)] }

/-- Witness for C7 at concrete inputs: pool bounds after a
`createRouter`/`closeRoom` sequence, the no-rooms no-op, and a concrete
scale-up step. -/
theorem c7_witness :
    (min 2 4 ≤ (msRun (MediasoupService.init 4)
        [MsOp.createRouter "R" (fun _ => 1), MsOp.closeRoom "R" (fun _ => 0)]).workers.length
      ∧ (msRun (MediasoupService.init 4)
        [MsOp.createRouter "R" (fun _ => 1), MsOp.closeRoom "R" (fun _ => 0)]).workers.length ≤ 4)
    ∧ (MediasoupService.init 4).routers.length = 0
    ∧ (MediasoupService.init 4).checkAndScale (fun _ => 1) = MediasoupService.init 4
    ∧ ((MediasoupService.calculateResourceUsage c7state).maxCpuUsage >
          MediasoupService.scaleUpThreshold ∧
        c7state.workers.length < c7state.maxWorkers)
    ∧ MediasoupService.scaleDecide c7state = { c7state with
        workers := c7state.workers ++ [c7state.nextPid]
        nextPid := c7state.nextPid + 1
        workerResourceUsage :=
          alSet c7state.workerResourceUsage c7state.nextPid ⟨0, 0, 0, 0⟩ } := by
  have h := c7_worker_pool_autoscaling 4
    [MsOp.createRouter "R" (fun _ => 1), MsOp.closeRoom "R" (fun _ => 0)]
    (MediasoupService.init 4) c7state (fun _ => 1)
  exact ⟨h.2.1, by decide, h.2.2.1 (by decide), by decide,
    h.2.2.2.1 (by decide)⟩

/-! ### Router-map access through `updRouter` -/

theorem alGet_updRouter_self (s : MediasoupService) (roomId : String)
    (f : RoomRouter → RoomRouter) (rr : RoomRouter)
    (h : alGet s.routers roomId = some rr) :
    alGet (s.updRouter roomId f).routers roomId = some (f rr) := by
  rw [MediasoupService.updRouter_routers]
  exact alGet_mapFirst_self _ _ _ _ h

theorem alGet_updRouter_ne (s : MediasoupService) (roomId rid : String)
    (f : RoomRouter → RoomRouter) (h : ¬ rid = roomId) :
    alGet (s.updRouter roomId f).routers rid = alGet s.routers rid := by
  rw [MediasoupService.updRouter_routers]
  exact alGet_mapFirst_ne _ _ _ _ h

/-- **C6.** `cleanupUserMedia(roomId, socketPrefix)` closes and removes
exactly those transports of the room whose id starts with the prefix; when
at least one transport was removed it additionally closes ALL producers of
the room, clears the producer map and returns every closed producer id;
when no transport matched, or no router bundle exists for the room, it
closes no producer and returns the empty list. -/
theorem c6_cleanupUserMedia_spec (s : MediasoupService)
    (roomId oldSocketId : String) :
    (∀ rr, alGet s.routers roomId = some rr →
      alGet (s.cleanupUserMedia roomId oldSocketId).2.routers roomId =
        some { rr with
          transports :=
            rr.transports.filter (fun t => ¬ strStartsWith t oldSocketId)
          producers :=
            if (rr.transports.filter
                (fun t => strStartsWith t oldSocketId)).length > 0 then []
            else rr.producers }
      ∧ (s.cleanupUserMedia roomId oldSocketId).2.closedTransports =
          s.closedTransports ++
            rr.transports.filter (fun t => strStartsWith t oldSocketId)
      ∧ ((rr.transports.filter
            (fun t => strStartsWith t oldSocketId)).length > 0 →
          (s.cleanupUserMedia roomId oldSocketId).1 = rr.producers
          ∧ (s.cleanupUserMedia roomId oldSocketId).2.closedProducers =
              s.closedProducers ++ rr.producers)
      ∧ (¬ (rr.transports.filter
            (fun t => strStartsWith t oldSocketId)).length > 0 →
          (s.cleanupUserMedia roomId oldSocketId).1 = []
          ∧ (s.cleanupUserMedia roomId oldSocketId).2.closedProducers =
              s.closedProducers))
    ∧ (alGet s.routers roomId = none →
        s.cleanupUserMedia roomId oldSocketId = ([], s)) := by
  constructor
  · intro rr h
    refine ⟨?_, ?_, ?_, ?_⟩
    · simp only [MediasoupService.cleanupUserMedia, h]
      exact alGet_updRouter_self s roomId _ rr h
    · simp only [MediasoupService.cleanupUserMedia, h,
        MediasoupService.updRouter_closedTransports]
    · intro hpos
      simp only [MediasoupService.cleanupUserMedia, h,
        MediasoupService.updRouter_closedProducers, hpos, if_true]
      exact ⟨by simp, by simp⟩
    · intro hneg
      simp only [MediasoupService.cleanupUserMedia, h,
        MediasoupService.updRouter_closedProducers, hneg, if_false]
      exact ⟨by simp, by simp⟩
  · intro h
    simp only [MediasoupService.cleanupUserMedia, h]

/-- A concrete media state for the cleanup witnesses. -/
def c6state : MediasoupService :=
  { MediasoupService.init 4 with
    routers := [("R", ⟨0, ["c1-send", "c2-recv"], ["p1"], ["x1"]⟩),
                ("S", ⟨1, ["c9-send"], ["p9"], ["x9"]⟩)] }

/-- Witness for C6: in `c6state`, cleaning up socket `c1` in room `R`
removes exactly `c1-send`, closes the lone producer and returns it. -/
theorem c6_witness :
    alGet c6state.routers "R" =
      some ⟨0, ["c1-send", "c2-recv"], ["p1"], ["x1"]⟩
    ∧ alGet (c6state.cleanupUserMedia "R" "c1").2.routers "R" =
        some ⟨0, ["c2-recv"], [], ["x1"]⟩
    ∧ (c6state.cleanupUserMedia "R" "c1").2.closedTransports = ["c1-send"]
    ∧ (c6state.cleanupUserMedia "R" "c1").1 = ["p1"]
    ∧ (c6state.cleanupUserMedia "R" "c1").2.closedProducers = ["p1"] := by
  have h := (c6_cleanupUserMedia_spec c6state "R" "c1").1
    ⟨0, ["c1-send", "c2-recv"], ["p1"], ["x1"]⟩ (by decide)
  obtain ⟨h1, h2, h3, _⟩ := h
  obtain ⟨h4, h5⟩ := h3 (by decide)
  refine ⟨by decide, ?_, ?_, ?_, ?_⟩
  · rw [h1]; decide
  · rw [h2]; decide
  · rw [h4]
  · rw [h5]; decide

/-- A consumer id is registered for a room. -/
def consumerRegistered (s : MediasoupService) (roomId cid : String) : Prop :=
  ∃ rr, alGet s.routers roomId = some rr ∧ cid ∈ rr.consumers

theorem consumerRegistered_updRouter (s : MediasoupService)
    (roomId : String) (f : RoomRouter → RoomRouter) (rid cid : String)
    (hf : ∀ rr, rr.consumers ⊆ (f rr).consumers) :
    consumerRegistered s rid cid →
      consumerRegistered (s.updRouter roomId f) rid cid := by
  rintro ⟨rr, h, hcin⟩
  by_cases he : rid = roomId
  · subst he
    exact ⟨f rr, alGet_updRouter_self s rid f rr h, hf rr hcin⟩
  · exact ⟨rr, by rw [alGet_updRouter_ne s roomId rid f he]; exact h, hcin⟩

theorem createRouter_routers_ne (s : MediasoupService)
    (roomId : String) (sample : Nat → ℚ) (rid : String)
    (hne : ¬ rid = roomId) :
    alGet (s.createRouter roomId sample).routers rid = alGet s.routers rid := by
  unfold MediasoupService.createRouter
  cases halg : alGet s.routers roomId with
  | some rr => rfl
  | none =>
    rw [(MediasoupService.checkAndScale_frame _ sample).1]
    exact alGet_alSet_ne _ _ _ _ hne

/-- Every facade operation other than `closeRoom` keeps every registered
consumer registered and closes no consumer. -/
theorem MsOp.apply_consumers (s : MediasoupService) (op : MsOp)
    (hop : op.isCloseRoom = false) (rid cid : String) :
    (consumerRegistered s rid cid → consumerRegistered (op.apply s) rid cid)
    ∧ (op.apply s).closedConsumers = s.closedConsumers := by
  cases op with
  | closeRoom roomId sample => simp [MsOp.isCloseRoom] at hop
  | createRouter roomId sample =>
    constructor
    · rintro ⟨rr, h, hcin⟩
      by_cases hne : rid = roomId
      · subst hne
        refine ⟨rr, ?_, hcin⟩
        show alGet (s.createRouter rid sample).routers rid = some rr
        unfold MediasoupService.createRouter
        rw [h]
        exact h
      · exact ⟨rr, by
          show alGet (s.createRouter roomId sample).routers rid = some rr
          rw [createRouter_routers_ne s roomId sample rid hne]; exact h, hcin⟩
    · show (s.createRouter roomId sample).closedConsumers = s.closedConsumers
      unfold MediasoupService.createRouter
      cases halg : alGet s.routers roomId with
      | some rr => rfl
      | none => exact (MediasoupService.checkAndScale_frame _ sample).2.2.2.1
  | createWebRtcTransport roomId transportId =>
    simp only [MsOp.apply, MediasoupService.createWebRtcTransport]
    cases halg : alGet s.routers roomId with
    | some rr =>
      exact ⟨consumerRegistered_updRouter s roomId _ rid cid
        (fun rr2 c hc => hc), by simp⟩
    | none => exact ⟨id, by simp⟩
  | connectTransport roomId transportId =>
    simp only [MsOp.apply, MediasoupService.connectTransport]
    cases halg : alGet s.routers roomId with
    | some rr => exact ⟨id, by simp⟩
    | none => exact ⟨id, by simp⟩
  | produce roomId transportId producerId =>
    simp only [MsOp.apply, MediasoupService.produce]
    cases halg : alGet s.routers roomId with
    | some rr =>
      by_cases ht : transportId ∈ rr.transports
      · simp only [ht, if_true]
        exact ⟨consumerRegistered_updRouter s roomId _ rid cid
          (fun rr2 c hc => hc), by simp⟩
      · simp only [ht, if_false]
        exact ⟨id, by simp⟩
    | none => exact ⟨id, by simp⟩
  | consume roomId transportId producerId consumerId canConsume =>
    simp only [MsOp.apply, MediasoupService.consume]
    cases halg : alGet s.routers roomId with
    | some rr =>
      by_cases ht : transportId ∈ rr.transports
      · by_cases hp : producerId ∈ rr.producers
        · cases canConsume with
          | true =>
            simp only [ht, hp, if_true]
            refine ⟨consumerRegistered_updRouter s roomId _ rid cid
              (fun rr => ?_), by simp⟩
            intro c hc
            simp only [idSet]
            split
            · exact hc
            · exact List.mem_append_left _ hc
          | false =>
            simp only [ht, hp, if_true, if_false]
            exact ⟨id, by simp⟩
        · simp only [ht, hp, if_true, if_false]
          exact ⟨id, by simp⟩
      · simp only [ht, if_false]
        exact ⟨id, by simp⟩
    | none => exact ⟨id, by simp⟩
  | resumeConsumer roomId consumerId =>
    simp only [MsOp.apply, MediasoupService.resumeConsumer]
    cases halg : alGet s.routers roomId with
    | some rr => exact ⟨id, by simp⟩
    | none => exact ⟨id, by simp⟩
  | closeProducer roomId producerId =>
    simp only [MsOp.apply, MediasoupService.closeProducer]
    cases halg : alGet s.routers roomId with
    | some rr =>
      by_cases hp : producerId ∈ rr.producers
      · simp only [hp, if_true]
        refine ⟨?_, by simp⟩
        intro hreg
        have := consumerRegistered_updRouter s roomId
          (fun rr => { rr with producers := rr.producers.filter (· ≠ producerId) })
          rid cid (fun rr2 c hc => hc) hreg
        obtain ⟨rr', h', hcin⟩ := this
        exact ⟨rr', h', hcin⟩
      · simp only [hp, if_false]
        exact ⟨id, by simp⟩
    | none => exact ⟨id, by simp⟩
  | closeTransport roomId transportId =>
    simp only [MsOp.apply, MediasoupService.closeTransport]
    cases halg : alGet s.routers roomId with
    | some rr =>
      by_cases ht : transportId ∈ rr.transports
      · simp only [ht, if_true]
        refine ⟨?_, by simp⟩
        intro hreg
        have := consumerRegistered_updRouter s roomId
          (fun rr => { rr with transports := rr.transports.filter (· ≠ transportId) })
          rid cid (fun rr2 c hc => hc) hreg
        obtain ⟨rr', h', hcin⟩ := this
        exact ⟨rr', h', hcin⟩
      · simp only [ht, if_false]
        exact ⟨id, by simp⟩
    | none => exact ⟨id, by simp⟩
  | cleanupUserMedia roomId oldSocketId =>
    simp only [MsOp.apply, MediasoupService.cleanupUserMedia]
    cases halg : alGet s.routers roomId with
    | some rr =>
      refine ⟨?_, by simp⟩
      intro hreg
      exact consumerRegistered_updRouter s roomId
        (fun rr2 => { rr2 with
          transports :=
            rr.transports.filter (fun t => ¬ strStartsWith t oldSocketId)
          producers :=
            if (rr.transports.filter
                (fun t => strStartsWith t oldSocketId)).length > 0 then []
            else rr2.producers })
        rid cid (fun rr2 c hc => hc) hreg
    | none => exact ⟨id, by simp⟩

/-- **C10.** `cleanupUserMedia` never modifies or closes the room's
consumers: every consumer registered before the call is still registered
(unclosed) after it, even when the call closes every producer; every
facade operation other than `closeRoom` preserves registered consumers and
closes none, while `closeRoom` closes them and removes the bundle. -/
theorem c10_cleanupUserMedia_consumers_frame (s : MediasoupService)
    (roomId oldSocketId rid cid : String) (op : MsOp) (sample : Nat → ℚ) :
    (∀ rr, alGet s.routers rid = some rr →
      ∃ rr', alGet (s.cleanupUserMedia roomId oldSocketId).2.routers rid =
          some rr' ∧ rr'.consumers = rr.consumers)
    ∧ (s.cleanupUserMedia roomId oldSocketId).2.closedConsumers =
        s.closedConsumers
    ∧ (op.isCloseRoom = false →
        (consumerRegistered s rid cid →
          consumerRegistered (op.apply s) rid cid)
        ∧ (op.apply s).closedConsumers = s.closedConsumers)
    ∧ (∀ rr, alGet s.routers roomId = some rr →
        alGet (s.closeRoom roomId sample).routers roomId = none
        ∧ (s.closeRoom roomId sample).closedConsumers =
            s.closedConsumers ++ rr.consumers) := by
  refine ⟨?_, ?_, ?_, ?_⟩
  · intro rr h
    by_cases hne : rid = roomId
    · subst hne
      simp only [MediasoupService.cleanupUserMedia, h]
      exact ⟨_, alGet_updRouter_self s rid _ rr h, rfl⟩
    · cases halg : alGet s.routers roomId with
      | none =>
        simp only [MediasoupService.cleanupUserMedia, halg]
        exact ⟨rr, h, rfl⟩
      | some rr0 =>
        simp only [MediasoupService.cleanupUserMedia, halg]
        exact ⟨rr, by
          rw [alGet_updRouter_ne s roomId rid _ hne]; exact h, rfl⟩
  · cases halg : alGet s.routers roomId with
    | none => simp [MediasoupService.cleanupUserMedia, halg]
    | some rr0 => simp [MediasoupService.cleanupUserMedia, halg]
  · exact fun hop => MsOp.apply_consumers s op hop rid cid
  · intro rr h
    simp only [MediasoupService.closeRoom, h]
    constructor
    · rw [(MediasoupService.checkAndScale_frame _ sample).1]
      exact alGet_alDel_self _ _
    · rw [(MediasoupService.checkAndScale_frame _ sample).2.2.2.1]

/-- A concrete media state for the consumer-frame witness. -/
def c10state : MediasoupService :=
  { MediasoupService.init 4 with
    routers := [("R", ⟨0, ["c1-send", "c1-recv"], ["p1", "p2"], ["x1", "x2"]⟩)] }

/-- Witness for C10: cleaning up socket `c1` in `c10state` closes both
producers yet leaves both consumers registered and unclosed. -/
theorem c10_witness :
    (∃ rr', alGet (c10state.cleanupUserMedia "R" "c1").2.routers "R" =
        some rr' ∧ rr'.consumers = ["x1", "x2"])
    ∧ (c10state.cleanupUserMedia "R" "c1").2.closedConsumers = []
    ∧ (c10state.cleanupUserMedia "R" "c1").1 = ["p1", "p2"]
    ∧ consumerRegistered
        ((MsOp.produce "R" "c1-send" "p9").apply c10state) "R" "x1" := by
  have h := c10_cleanupUserMedia_consumers_frame c10state "R" "c1" "R" "x1"
    (MsOp.produce "R" "c1-send" "p9") (fun _ => 0)
  obtain ⟨h1, h2, h3, _⟩ := h
  obtain ⟨rr', hget, hcons⟩ :=
    h1 ⟨0, ["c1-send", "c1-recv"], ["p1", "p2"], ["x1", "x2"]⟩ (by decide)
  refine ⟨⟨rr', hget, by rw [hcons]⟩, h2.trans (by decide), by decide, ?_⟩
  exact (h3 (by decide)).1 ⟨⟨0, ["c1-send", "c1-recv"], ["p1", "p2"],
    ["x1", "x2"]⟩, by decide, by decide⟩

/-! ## Chat storage (`JsonStorageService.addReaction`) and the
`react-to-message` handler of the chat gateway -/

structure MessageReaction where
  emoji : String
  userIds : List String
  deriving DecidableEq, Repr

structure Message where
  id : String
  userId : String
  userName : String
  message : String
  timestamp : Nat
  roomId : String
  reactions : Option (List MessageReaction) := none
  deriving DecidableEq, Repr

/-- The reaction-toggle of `addReaction`, acting on one message's
reaction list (`message.reactions` after the `?? []` default).  The JS
code mutates the found reaction object in place and, when its user list
becomes empty, replaces the array by a filter that also drops the mutated
object; `updateFirst` + `filter` reproduces that sequence. -/
def toggleReaction (reactions : List MessageReaction)
    (userId emoji : String) : List MessageReaction :=
  match reactions.find? (fun r => r.emoji = emoji) with
  | some existing =>
    if userId ∈ existing.userIds then
      let newIds := existing.userIds.filter (fun i => i ≠ userId)
      if newIds.length = 0 then
        (updateFirst (fun r => r.emoji = emoji)
          (fun r => { r with userIds := r.userIds.filter (fun i => i ≠ userId) })
          reactions).filter (fun r => r.emoji ≠ emoji)
      else
        updateFirst (fun r => r.emoji = emoji)
          (fun r => { r with userIds := r.userIds.filter (fun i => i ≠ userId) })
          reactions
    else
      updateFirst (fun r => r.emoji = emoji)
        (fun r => { r with userIds := r.userIds ++ [userId] }) reactions
  | none => reactions ++ [⟨emoji, [userId]⟩]

/-- The in-place mutation `message.reactions = ...` of the found message. -/
def setReactions (reactions' : List MessageReaction) (m : Message) : Message :=
  { m with reactions := some reactions' }

/-- `JsonStorageService.addReaction`: find the message by id and room,
toggle the user's reaction, persist; `Message not found` is thrown
otherwise.  Returns the message's reactions and the updated store. -/
def addReaction (data : List Message)
    (roomId messageId userId emoji : String) :
    Except String (List MessageReaction × List Message) :=
  match data.find? (fun m => m.id = messageId ∧ m.roomId = roomId) with
  | none => .error "Message not found"
  | some msg =>
    let reactions' := toggleReaction (msg.reactions.getD []) userId emoji
    let data' := updateFirst (fun m => m.id = messageId ∧ m.roomId = roomId)
      (setReactions reactions') data
    .ok (reactions', data')

inductive ChatEmit where
  | reactionUpdated (roomId messageId : String)
      (reactions : List MessageReaction)
  deriving DecidableEq, Repr

/-- `handleReactToMessage`: on success broadcast
`message-reaction-updated {messageId, reactions}` to the room; on error
log and emit nothing. -/
def handleReactToMessage (data : List Message)
    (roomId messageId userId emoji : String) :
    List Message × List ChatEmit :=
  match addReaction data roomId messageId userId emoji with
  | .ok (reactions, data') =>
      (data', [.reactionUpdated roomId messageId reactions])
  | .error _ => (data, [])

/-- A user has reacted with an emoji somewhere in a reaction list. -/
def reactedBy (reactions : List MessageReaction) (e u : String) : Prop :=
  ∃ r ∈ reactions, r.emoji = e ∧ u ∈ r.userIds

/-- The user list of the first entry for an emoji. -/
def usersOf (reactions : List MessageReaction) (e : String) : List String :=
  ((reactions.find? (fun r => r.emoji = e)).map (·.userIds)).getD []

/-! ### Reaction-toggle lemmas -/

theorem find?_mem_of_nodup_emoji (R : List MessageReaction) (e : String)
    (r : MessageReaction) (hnd : (R.map (·.emoji)).Nodup)
    (hr : r ∈ R) (he : r.emoji = e) :
    R.find? (fun x => x.emoji = e) = some r := by
  induction R with
  | nil => cases hr
  | cons x xs ih =>
    rcases List.mem_cons.mp hr with h | h
    · subst h
      exact List.find?_cons_of_pos _ (by simp [he])
    · rw [List.map_cons, List.nodup_cons] at hnd
      by_cases hx : x.emoji = e
      · exfalso
        apply hnd.1
        rw [hx, ← he]
        exact List.mem_map.mpr ⟨r, h, rfl⟩
      · rw [List.find?_cons_of_neg _ (by simp [hx])]
        exact ih hnd.2 h

theorem reactedBy_iff_usersOf (R : List MessageReaction) (e u : String)
    (hnd : (R.map (·.emoji)).Nodup) :
    reactedBy R e u ↔ u ∈ usersOf R e := by
  constructor
  · rintro ⟨r, hr, he, hu⟩
    rw [usersOf, find?_mem_of_nodup_emoji R e r hnd hr he]
    exact hu
  · intro hu
    unfold usersOf at hu
    cases hfind : R.find? (fun x => x.emoji = e) with
    | none => rw [hfind] at hu; cases hu
    | some r =>
      rw [hfind] at hu
      exact ⟨r, List.mem_of_find?_eq_some hfind,
        by simpa using List.find?_some hfind, hu⟩

theorem find?_updateFirst_emoji_ne (R : List MessageReaction)
    (g : MessageReaction → MessageReaction) (emoji e : String)
    (hg : ∀ r, (g r).emoji = r.emoji) (he : ¬ e = emoji) :
    (updateFirst (fun r => r.emoji = emoji) g R).find? (fun r => r.emoji = e)
      = R.find? (fun r => r.emoji = e) := by
  induction R with
  | nil => rfl
  | cons x xs ih =>
    by_cases hx : x.emoji = emoji
    · have hxe : ¬ x.emoji = e := by
        rw [hx]; exact fun hh => he (Eq.symm hh)
      rw [updateFirst_cons_pos _ _ _ _ (by simp [hx])]
      rw [List.find?_cons_of_neg _ (by simp [hg x, hxe]),
        List.find?_cons_of_neg _ (by simp [hxe])]
    · rw [updateFirst_cons_neg _ _ _ _ (by simp [hx])]
      by_cases hxe : x.emoji = e
      · rw [List.find?_cons_of_pos _ (by simp [hxe]),
          List.find?_cons_of_pos _ (by simp [hxe])]
      · rw [List.find?_cons_of_neg _ (by simp [hxe]),
          List.find?_cons_of_neg _ (by simp [hxe])]
        exact ih

theorem filter_updateFirst_emoji (R : List MessageReaction)
    (g : MessageReaction → MessageReaction) (emoji : String)
    (hg : ∀ r, (g r).emoji = r.emoji) :
    (updateFirst (fun r => r.emoji = emoji) g R).filter
        (fun r => r.emoji ≠ emoji)
      = R.filter (fun r => r.emoji ≠ emoji) := by
  induction R with
  | nil => rfl
  | cons x xs ih =>
    by_cases hx : x.emoji = emoji
    · rw [updateFirst_cons_pos _ _ _ _ (by simp [hx])]
      rw [List.filter_cons, List.filter_cons]
      rw [if_neg (by simp [hg x, hx]), if_neg (by simp [hx])]
    · rw [updateFirst_cons_neg _ _ _ _ (by simp [hx])]
      rw [List.filter_cons, List.filter_cons]
      rw [if_pos (by simp [hx]), if_pos (by simp [hx]), ih]

theorem find?_filter_emoji_self (R : List MessageReaction) (emoji : String) :
    (R.filter (fun r => r.emoji ≠ emoji)).find? (fun r => r.emoji = emoji)
      = none := by
  rw [List.find?_eq_none]
  intro x hx
  have := (List.mem_filter.mp hx).2
  simpa using this

theorem find?_filter_emoji_ne (R : List MessageReaction) (emoji e : String)
    (he : ¬ e = emoji) :
    (R.filter (fun r => r.emoji ≠ emoji)).find? (fun r => r.emoji = e)
      = R.find? (fun r => r.emoji = e) := by
  induction R with
  | nil => rfl
  | cons x xs ih =>
    rw [List.filter_cons]
    by_cases hx : x.emoji = emoji
    · have hxe : ¬ x.emoji = e := by
        rw [hx]; exact fun hh => he (Eq.symm hh)
      rw [if_neg (by simp [hx])]
      rw [List.find?_cons_of_neg _ (by simp [hxe])]
      exact ih
    · rw [if_pos (by simp [hx])]
      by_cases hxe : x.emoji = e
      · rw [List.find?_cons_of_pos _ (by simp [hxe]),
          List.find?_cons_of_pos _ (by simp [hxe])]
      · rw [List.find?_cons_of_neg _ (by simp [hxe]),
          List.find?_cons_of_neg _ (by simp [hxe])]
        exact ih

theorem filter_of_find?_emoji_none (R : List MessageReaction) (emoji : String)
    (h : R.find? (fun r => r.emoji = emoji) = none) :
    R.filter (fun r => r.emoji ≠ emoji) = R := by
  rw [List.filter_eq_self]
  intro x hx
  have := List.find?_eq_none.mp h x hx
  simpa using this

theorem map_emoji_updateFirst (R : List MessageReaction)
    (g : MessageReaction → MessageReaction) (emoji : String)
    (hg : ∀ r, (g r).emoji = r.emoji) :
    (updateFirst (fun r => r.emoji = emoji) g R).map (·.emoji)
      = R.map (·.emoji) := by
  induction R with
  | nil => rfl
  | cons x xs ih =>
    by_cases hx : x.emoji = emoji
    · rw [updateFirst_cons_pos _ _ _ _ (by simp [hx])]
      simp [hg x]
    · rw [updateFirst_cons_neg _ _ _ _ (by simp [hx])]
      simp [ih]

theorem updateFirst_updateFirst (p : α → Bool) (g1 g2 : α → α) (l : List α)
    (hp : ∀ x, p (g1 x) = p x) :
    updateFirst p g2 (updateFirst p g1 l)
      = updateFirst p (fun x => g2 (g1 x)) l := by
  induction l with
  | nil => rfl
  | cons x xs ih =>
    by_cases hx : p x
    · rw [updateFirst_cons_pos _ _ _ _ hx,
        updateFirst_cons_pos _ _ _ _ (by rw [hp x]; exact hx),
        updateFirst_cons_pos _ _ _ _ hx]
    · rw [updateFirst_cons_neg _ _ _ _ hx,
        updateFirst_cons_neg _ _ _ _ hx,
        updateFirst_cons_neg _ _ _ _ hx, ih]

theorem toggle_nodup (R : List MessageReaction) (userId emoji : String)
    (hnd : (R.map (·.emoji)).Nodup) :
    ((toggleReaction R userId emoji).map (·.emoji)).Nodup := by
  unfold toggleReaction
  cases hfind : R.find? (fun r => r.emoji = emoji) with
  | none =>
    have : emoji ∉ R.map (·.emoji) := by
      intro hmem
      obtain ⟨r, hr, he⟩ := List.mem_map.mp hmem
      have := List.find?_eq_none.mp hfind r hr
      simp [he] at this
    simp [List.nodup_append, hnd, this]
  | some r =>
    by_cases hu : userId ∈ r.userIds
    · by_cases hnil : (r.userIds.filter (fun i => i ≠ userId)).length = 0
      · simp only [hu, if_true, hnil]
        rw [filter_updateFirst_emoji R
          (fun r => { r with
            userIds := r.userIds.filter (fun i => i ≠ userId) })
          emoji (fun r => rfl)]
        exact List.Nodup.sublist
          (List.Sublist.map (fun x : MessageReaction => x.emoji)
            (List.filter_sublist R)) hnd
      · simp only [hu, if_true, hnil, if_false]
        rw [map_emoji_updateFirst R
          (fun r => { r with
            userIds := r.userIds.filter (fun i => i ≠ userId) })
          emoji (fun r => rfl)]
        exact hnd
    · simp only [hu, if_false]
      rw [map_emoji_updateFirst R
        (fun r => { r with userIds := r.userIds ++ [userId] })
        emoji (fun r => rfl)]
      exact hnd

theorem toggle_toggle_usersOf (R : List MessageReaction)
    (userId emoji : String) (e u : String) :
    u ∈ usersOf (toggleReaction (toggleReaction R userId emoji) userId emoji) e
      ↔ u ∈ usersOf R e := by
  cases hfind : R.find? (fun r => r.emoji = emoji) with
  | none =>
    have hT1 : toggleReaction R userId emoji = R ++ [⟨emoji, [userId]⟩] := by
      unfold toggleReaction
      simp only [hfind]
    have hfind1 : (R ++ [({ emoji := emoji, userIds := [userId] } : MessageReaction)]).find?
          (fun r => r.emoji = emoji)
        = some { emoji := emoji, userIds := [userId] } := by
      rw [List.find?_append, hfind]
      simp
    have hT2 : toggleReaction
        (R ++ [({ emoji := emoji, userIds := [userId] } : MessageReaction)])
        userId emoji = R := by
      unfold toggleReaction
      simp only [hfind1]
      rw [if_pos (by simp), if_pos (by simp)]
      rw [filter_updateFirst_emoji
        (R ++ [({ emoji := emoji, userIds := [userId] } : MessageReaction)])
        (fun x => { x with userIds := x.userIds.filter (fun i => i ≠ userId) })
        emoji (fun x => rfl)]
      rw [List.filter_append, filter_of_find?_emoji_none R emoji hfind]
      simp
    rw [hT1, hT2]
  | some r =>
    have hre : r.emoji = emoji := by simpa using List.find?_some hfind
    by_cases hu : userId ∈ r.userIds
    · by_cases hnil : (r.userIds.filter (fun i => i ≠ userId)).length = 0
      · have hall : ∀ x ∈ r.userIds, x = userId := by
          intro x hx
          by_contra hne
          have hmem : x ∈ r.userIds.filter (fun i => i ≠ userId) :=
            List.mem_filter.mpr ⟨hx, by simpa using hne⟩
          rw [List.length_eq_zero.mp hnil] at hmem
          cases hmem
        have hT1 : toggleReaction R userId emoji =
            R.filter (fun x => x.emoji ≠ emoji) := by
          unfold toggleReaction
          simp only [hfind]
          rw [if_pos hu, if_pos hnil]
          exact filter_updateFirst_emoji R
            (fun x => { x with userIds := x.userIds.filter (fun i => i ≠ userId) })
            emoji (fun x => rfl)
        have hfind1 : (R.filter (fun x => x.emoji ≠ emoji)).find?
            (fun x => x.emoji = emoji) = none := find?_filter_emoji_self R emoji
        have hT2 : toggleReaction (R.filter (fun x => x.emoji ≠ emoji))
            userId emoji
            = R.filter (fun x => x.emoji ≠ emoji) ++
              [({ emoji := emoji, userIds := [userId] } : MessageReaction)] := by
          unfold toggleReaction
          simp only [hfind1]
        rw [hT1, hT2]
        by_cases he : e = emoji
        · unfold usersOf
          rw [he, List.find?_append, hfind1, hfind]
          rw [List.find?_cons_of_pos _ (by simp)]
          simp only [Option.none_or, Option.map_some', Option.getD_some]
          constructor
          · intro hmem
            rw [List.mem_singleton.mp hmem]
            exact hu
          · intro hmem
            rw [hall u hmem]
            simp
        · unfold usersOf
          rw [List.find?_append, find?_filter_emoji_ne R emoji e he,
            List.find?_cons_of_neg _ (by simpa using fun hh => he (Eq.symm hh))]
          simp
      · have hT1 : toggleReaction R userId emoji =
            updateFirst (fun x => x.emoji = emoji)
              (fun x =>
                { x with userIds := x.userIds.filter (fun i => i ≠ userId) })
              R := by
          unfold toggleReaction
          simp only [hfind]
          rw [if_pos hu, if_neg hnil]
        have hfind1 : (updateFirst (fun x => x.emoji = emoji)
              (fun x =>
                { x with userIds := x.userIds.filter (fun i => i ≠ userId) })
              R).find? (fun x => x.emoji = emoji)
            = some
              { r with userIds := r.userIds.filter (fun i => i ≠ userId) } :=
          find?_updateFirst_self _ _ R r hfind (by simp [hre])
        have hT2 : toggleReaction (toggleReaction R userId emoji) userId emoji
            = updateFirst (fun x => x.emoji = emoji)
              (fun x =>
                { x with
                  userIds := x.userIds.filter (fun i => i ≠ userId) ++ [userId] })
              R := by
          rw [hT1]
          unfold toggleReaction
          simp only [hfind1]
          rw [if_neg (by simp)]
          exact updateFirst_updateFirst _ _ _ R (fun x => rfl)
        rw [hT2]
        by_cases he : e = emoji
        · unfold usersOf
          rw [he, find?_updateFirst_self _ _ R r hfind (by simp [hre]), hfind]
          simp only [Option.map_some', Option.getD_some]
          constructor
          · intro hmem
            rcases List.mem_append.mp hmem with h | h
            · exact (List.mem_filter.mp h).1
            · rw [List.mem_singleton.mp h]
              exact hu
          · intro hmem
            by_cases h2 : u = userId
            · exact List.mem_append_right _ (by simp [h2])
            · exact List.mem_append_left _
                (List.mem_filter.mpr ⟨hmem, by simpa using h2⟩)
        · unfold usersOf
          rw [find?_updateFirst_emoji_ne R
            (fun x =>
              { x with
                userIds := x.userIds.filter (fun i => i ≠ userId) ++ [userId] })
            emoji e (fun x => rfl) he]
    · have hT1 : toggleReaction R userId emoji =
          updateFirst (fun x => x.emoji = emoji)
            (fun x => { x with userIds := x.userIds ++ [userId] }) R := by
        unfold toggleReaction
        simp only [hfind]
        rw [if_neg hu]
      have hfind1 : (updateFirst (fun x => x.emoji = emoji)
            (fun x => { x with userIds := x.userIds ++ [userId] }) R).find?
            (fun x => x.emoji = emoji)
          = some { r with userIds := r.userIds ++ [userId] } :=
        find?_updateFirst_self _ _ R r hfind (by simp [hre])
      have hfid : r.userIds.filter (fun i => i ≠ userId) = r.userIds :=
        List.filter_eq_self.mpr (fun x hx => by
          have : ¬ x = userId := fun hh => hu (hh ▸ hx)
          simpa using this)
      by_cases hnil2 : ((r.userIds ++ [userId]).filter
          (fun i => i ≠ userId)).length = 0
      · have hbase : r.userIds = [] := by
          have h0 := List.length_eq_zero.mp hnil2
          rw [List.filter_append, hfid] at h0
          exact (List.append_eq_nil.mp h0).1
        have hT2 : toggleReaction (toggleReaction R userId emoji) userId emoji
            = R.filter (fun x => x.emoji ≠ emoji) := by
          rw [hT1]
          unfold toggleReaction
          simp only [hfind1]
          rw [if_pos (by simp), if_pos hnil2]
          rw [filter_updateFirst_emoji _
            (fun x =>
              { x with userIds := x.userIds.filter (fun i => i ≠ userId) })
            emoji (fun x => rfl)]
          exact filter_updateFirst_emoji R
            (fun x => { x with userIds := x.userIds ++ [userId] })
            emoji (fun x => rfl)
        rw [hT2]
        by_cases he : e = emoji
        · unfold usersOf
          rw [he, find?_filter_emoji_self R emoji, hfind]
          simp [hbase]
        · unfold usersOf
          rw [find?_filter_emoji_ne R emoji e he]
      · have hT2 : toggleReaction (toggleReaction R userId emoji) userId emoji
            = updateFirst (fun x => x.emoji = emoji)
              (fun x =>
                { x with
                  userIds := (x.userIds ++ [userId]).filter (fun i => i ≠ userId) })
              R := by
          rw [hT1]
          unfold toggleReaction
          simp only [hfind1]
          rw [if_pos (by simp), if_neg hnil2]
          exact updateFirst_updateFirst _ _ _ R (fun x => rfl)
        rw [hT2]
        by_cases he : e = emoji
        · unfold usersOf
          rw [he, find?_updateFirst_self _ _ R r hfind (by simp [hre]), hfind]
          simp only [Option.map_some', Option.getD_some]
          rw [List.filter_append, hfid]
          simp
        · unfold usersOf
          rw [find?_updateFirst_emoji_ne R
            (fun x =>
              { x with
                userIds := (x.userIds ++ [userId]).filter (fun i => i ≠ userId) })
            emoji e (fun x => rfl) he]

/-- **C8.** `addReaction` toggles: a user already present in the emoji's
reaction is removed (the entry disappearing when empty), otherwise added;
hence two successive identical `react-to-message` events from the same
user return the message's reactions to their prior value (the reaction
relation `reactedBy` is restored exactly), and
`message-reaction-updated {messageId, reactions}` is broadcast to the room
after each of the two events. -/
theorem c8_reaction_toggle (data : List Message)
    (roomId messageId userId emoji : String) (msg : Message)
    (hfind : data.find? (fun m => m.id = messageId ∧ m.roomId = roomId) =
      some msg)
    (hnd : ((msg.reactions.getD []).map (·.emoji)).Nodup) :
    (∀ e u, reactedBy (toggleReaction
        (toggleReaction (msg.reactions.getD []) userId emoji) userId emoji) e u
      ↔ reactedBy (msg.reactions.getD []) e u)
    ∧ (handleReactToMessage data roomId messageId userId emoji).2 =
        [.reactionUpdated roomId messageId
          (toggleReaction (msg.reactions.getD []) userId emoji)]
    ∧ (handleReactToMessage
        (handleReactToMessage data roomId messageId userId emoji).1
        roomId messageId userId emoji).2 =
        [.reactionUpdated roomId messageId
          (toggleReaction
            (toggleReaction (msg.reactions.getD []) userId emoji)
            userId emoji)] := by
  have hidp : msg.id = messageId ∧ msg.roomId = roomId := by
    simpa using List.find?_some hfind
  have h1 : handleReactToMessage data roomId messageId userId emoji =
      (updateFirst (fun m => m.id = messageId ∧ m.roomId = roomId)
        (setReactions
          (toggleReaction (msg.reactions.getD []) userId emoji)) data,
       [.reactionUpdated roomId messageId
          (toggleReaction (msg.reactions.getD []) userId emoji)]) := by
    unfold handleReactToMessage addReaction
    simp only [hfind]
  have hfind2 : (updateFirst (fun m => m.id = messageId ∧ m.roomId = roomId)
        (setReactions
          (toggleReaction (msg.reactions.getD []) userId emoji))
        data).find? (fun m => m.id = messageId ∧ m.roomId = roomId) =
      some (setReactions
        (toggleReaction (msg.reactions.getD []) userId emoji) msg) :=
    find?_updateFirst_self _ _ data msg hfind
      (by simp [setReactions, hidp.1, hidp.2])
  have h2 : handleReactToMessage
      (handleReactToMessage data roomId messageId userId emoji).1
      roomId messageId userId emoji =
      (updateFirst (fun m => m.id = messageId ∧ m.roomId = roomId)
        (setReactions
          (toggleReaction
            (toggleReaction (msg.reactions.getD []) userId emoji)
            userId emoji))
        (handleReactToMessage data roomId messageId userId emoji).1,
       [.reactionUpdated roomId messageId
          (toggleReaction
            (toggleReaction (msg.reactions.getD []) userId emoji)
            userId emoji)]) := by
    rw [h1]
    unfold handleReactToMessage addReaction
    simp only [hfind2]
    simp only [setReactions, Option.getD_some]
  refine ⟨?_, ?_, ?_⟩
  · intro e u
    rw [reactedBy_iff_usersOf _ _ _
        (toggle_nodup _ userId emoji (toggle_nodup _ userId emoji hnd)),
      reactedBy_iff_usersOf _ _ _ hnd]
    exact toggle_toggle_usersOf (msg.reactions.getD []) userId emoji e u
  · rw [h1]
  · rw [h2]

/-- The chat message used by the reaction-toggle witness. -/
def c8msg : Message where
  id := "u1"
  userId := "H"
  userName := "Alice"
  message := "hi"
  timestamp := 5
  roomId := "R"

/-- Witness for C8: the spec's scenario — one 👍 toggle adds the viewer,
the second removes the reaction entirely, with a broadcast each time. -/
theorem c8_witness :
    toggleReaction (c8msg.reactions.getD []) "V" "👍" =
      [{ emoji := "👍", userIds := ["V"] }]
    ∧ toggleReaction
        (toggleReaction (c8msg.reactions.getD []) "V" "👍") "V" "👍" = []
    ∧ (∀ e u, reactedBy (toggleReaction
          (toggleReaction (c8msg.reactions.getD []) "V" "👍") "V" "👍") e u
        ↔ reactedBy (c8msg.reactions.getD []) e u)
    ∧ (handleReactToMessage [c8msg] "R" "u1" "V" "👍").2 =
        [.reactionUpdated "R" "u1"
          (toggleReaction (c8msg.reactions.getD []) "V" "👍")]
    ∧ (handleReactToMessage (handleReactToMessage [c8msg] "R" "u1" "V" "👍").1
          "R" "u1" "V" "👍").2 =
        [.reactionUpdated "R" "u1"
          (toggleReaction
            (toggleReaction (c8msg.reactions.getD []) "V" "👍") "V" "👍")] := by
  have h := c8_reaction_toggle [c8msg] "R" "u1" "V" "👍" c8msg
    (by decide) (by decide)
  exact ⟨by decide, by decide, h.1, h.2.1, h.2.2⟩

/-- Three-part string concatenation (used for interpolated messages). -/
def strConcat3 (a b c : String) : String := a ++ b ++ c

/-! ## `RoomsGateway`: signaling handlers of `rooms.gateway.ts`

The socket.io side becomes: an `Emit` list (outbound events), a `live`
oracle (the set of currently connected socket ids, consulted by the
grace-timer safety check) and per-call socket ids.  `oldSocket.disconnect(true)`
on a superseded connection is a transport-level action whose induced
`handleDisconnect` finds no user for the old socket (the mapping is
rebound first, as the source comments require) and is therefore a no-op
here.  Console logging and chat-history loading I/O carry no state; the
history reply is the `chatHistory` event. -/

inductive Ev where
  | roomCreated (roomId hostId : String) (members : List String)
      (theme : String)
  | roomJoined (roomId hostId : String) (members : List String)
      (theme : String)
  | memberJoined (memberId name : String) (members : List String)
  | memberLeft (memberId : String) (members : List String)
  | roomDeleted (message : String)
  | hostReconnected (hostId hostSocketId : String)
  | viewerJoined (viewerId : String)
  | error (message : String)
  | producerClosed (producerId : String)
  | themeUpdated (theme : String)
  | chatHistory
  deriving DecidableEq, Repr

inductive Emit where
  | toSocket (socketId : String) (ev : Ev)
  | toRoom (roomId : String) (ev : Ev)
  | toRoomExcept (roomId sender : String) (ev : Ev)
  deriving DecidableEq, Repr

structure RoomsGateway where
  repo : RoomsRepository
  ms : MediasoupService
  pendingDisconnects : List (String × Option String)
  deriving Repr

namespace RoomsGateway

/-- `cancelPendingDisconnect`: clear the user's grace timer if armed. -/
def cancelPendingDisconnect (g : RoomsGateway) (userId : String) :
    RoomsGateway × Bool :=
  match alGet g.pendingDisconnects userId with
  | some _ =>
    ({ g with pendingDisconnects := alDel g.pendingDisconnects userId }, true)
  | none => (g, false)

/-- `handleDisconnect`: resolve the user of the dropped socket; if none,
ignore; otherwise (re-)arm the grace timer, capturing the user's current
room id in the timer closure. -/
def handleDisconnect (g : RoomsGateway) (socketId : String) : RoomsGateway :=
  match g.repo.findUserIdBySocketId socketId with
  | none => g
  | some userId =>
    let roomId := g.repo.getUserRoom userId
    { g with pendingDisconnects := alSet g.pendingDisconnects userId roomId }

/-- `processUserDisconnect`, run when a grace timer fires with the
captured `roomId`: skip everything if the user's currently bound socket is
live; otherwise commit the departure — remove from the room, emit
`member-left` (and `room-deleted` plus `closeRoom` when the host left) and
drop the presence record. -/
def processUserDisconnect (g : RoomsGateway) (userId : String)
    (roomId : Option String) (live : List String) (sample : Nat → ℚ) :
    RoomsGateway × List Emit :=
  let skip : Bool := match g.repo.getUserSocket userId with
    | some sid => decide (sid ∈ live)
    | none => false
  if skip then (g, [])
  else
    let (result, repo1) := RoomsService.handleUserDisconnect g.repo userId
    let (ms1, evs) :=
      match result, roomId with
      | some res, some rid =>
        let evs1 := [Emit.toRoom rid (.memberLeft res.memberId res.members)]
        if res.roomDeleted then
          (g.ms.closeRoom rid sample,
            evs1 ++ [Emit.toRoom rid (.roomDeleted "Host has left the room")])
        else (g.ms, evs1)
      | _, _ => (g.ms, [])
    let repo2 := repo1.removeLoggedInUser userId
    (⟨repo2, ms1, g.pendingDisconnects⟩, evs)

/-- The timer callback: it only runs if the timer is still armed; it
removes itself from the pending map and processes the disconnect. -/
def graceExpire (g : RoomsGateway) (userId : String) (live : List String)
    (sample : Nat → ℚ) : RoomsGateway × List Emit :=
  match alGet g.pendingDisconnects userId with
  | none => (g, [])
  | some rid =>
    processUserDisconnect
      { g with pendingDisconnects := alDel g.pendingDisconnects userId }
      userId rid live sample

/-- `handleCreateRoom` (`create-room {hostId, name}` from `clientId`). -/
def handleCreateRoom (g : RoomsGateway) (hostId name clientId : String) :
    RoomsGateway × List Emit :=
  let g1 := (cancelPendingDisconnect g hostId).1
  let existingRoomId? := g1.repo.getUserRoom hostId
  let existingRoom? := match existingRoomId? with
    | some rid => g1.repo.findRoomById rid
    | none => none
  let hasExistingViewers : Bool := match existingRoom? with
    | some r => decide (r.members.length > 1)
    | none => false
  let (g2, evs1) :=
    match existingRoomId? with
    | none => (g1, ([] : List Emit))
    | some existingRoomId =>
      let (g15, evs) : RoomsGateway × List Emit :=
        match g1.repo.getUserSocket hostId with
        | some existingSocketId =>
          if existingSocketId ≠ clientId then
            let (closedProducerIds, ms1) :=
              g1.ms.cleanupUserMedia existingRoomId existingSocketId
            let evs := closedProducerIds.map
              (fun pid => Emit.toRoom existingRoomId (.producerClosed pid))
            (⟨g1.repo.setUserSocket hostId clientId, ms1,
              g1.pendingDisconnects⟩, evs)
          else (g1, [])
        | none => (g1, [])
      if !hasExistingViewers then
        ({ g15 with
            repo := (RoomsService.leaveRoom g15.repo existingRoomId hostId).2 },
          evs)
      else (g15, evs)
  let (room, repo3) := RoomsService.createRoom g2.repo hostId
  let isRejoining := room.members.length > 1
  let repo4 := repo3.setUserSocket hostId clientId
  let repo5 := repo4.setUserRoom hostId room.roomId
  let repo6 := repo5.addLoggedInUser hostId name (some room.roomId) clientId
  let evs2 := [Emit.toSocket clientId
    (.roomCreated room.roomId room.hostId room.members (room.theme.getD "none"))]
  let evs3 := if isRejoining then
      [Emit.toRoomExcept room.roomId clientId (.hostReconnected hostId clientId)]
    else []
  (⟨repo6, g2.ms, g2.pendingDisconnects⟩,
    evs1 ++ evs2 ++ evs3 ++ [Emit.toSocket clientId .chatHistory])

/-- `handleJoinRoom` (`join-room {roomId, memberId, name}` from
`clientId`). -/
def handleJoinRoom (g : RoomsGateway) (roomId memberId name clientId : String) :
    RoomsGateway × List Emit :=
  match g.repo.findRoomById roomId with
  | none => (g, [Emit.toSocket clientId (.error "Room not found")])
  | some room =>
    let (g1, wasReconnecting) := cancelPendingDisconnect g memberId
    let isAlreadyInRoom := memberId ∈ room.members
    let dup :=
      if isAlreadyInRoom then false
      else ((RoomsService.getRoomMembersWithDetails g1.repo roomId).find?
        (fun m => m.name = name ∧ m.genID ≠ memberId)).isSome
    if dup then
      (g1, [Emit.toSocket clientId (.error
        (strConcat3 "The name \"" name
          "\" is already taken in this room. Please choose another name."))])
    else
      let isLoggedInToRoom := g1.repo.isUserLoggedInToRoom memberId roomId
      if isAlreadyInRoom ∨ wasReconnecting ∨ isLoggedInToRoom then
        let repo1 := match g1.repo.getUserSocket memberId with
          | some existingSocketId =>
            if existingSocketId ≠ clientId then
              g1.repo.setUserSocket memberId clientId
            else g1.repo
          | none => g1.repo
        let repo2 := repo1.setUserSocket memberId clientId
        let repo3 := repo2.setUserRoom memberId roomId
        let repo4 := repo3.addLoggedInUser memberId name (some roomId) clientId
        let repo5 := if isAlreadyInRoom then repo4
          else (RoomsService.joinRoom repo4 roomId memberId).2
        let latestMembers := match repo5.findRoomById roomId with
          | some r => r.members
          | none => room.members
        let evs := [Emit.toSocket clientId
            (.roomJoined room.roomId room.hostId latestMembers
              (room.theme.getD "none")),
          Emit.toRoomExcept roomId clientId
            (.memberJoined memberId name latestMembers)]
        let evs2 := if memberId ≠ room.hostId then
            match repo5.getUserSocket room.hostId with
            | some hostSocketId =>
              [Emit.toSocket hostSocketId (.viewerJoined clientId)]
            | none => []
          else []
        (⟨repo5, g1.ms, g1.pendingDisconnects⟩,
          evs ++ evs2 ++ [Emit.toSocket clientId .chatHistory])
      else
        let (g2, evsLeave) :=
          match g1.repo.getUserRoom memberId with
          | some existingRoomId =>
            if existingRoomId ≠ roomId then
              match RoomsService.leaveRoom g1.repo existingRoomId memberId with
              | (some res, repoL) =>
                ({ g1 with repo := repoL },
                  [Emit.toRoom existingRoomId
                    (.memberLeft res.memberId res.members)])
              | (none, repoL) => ({ g1 with repo := repoL }, [])
            else (g1, [])
          | none => (g1, [])
        match RoomsService.joinRoom g2.repo roomId memberId with
        | (none, repoJ) =>
          ({ g2 with repo := repoJ },
            evsLeave ++ [Emit.toSocket clientId (.error "Failed to join room")])
        | (some updatedRoom, repoJ) =>
          let repo1 := repoJ.setUserSocket memberId clientId
          let repo2 := repo1.setUserRoom memberId roomId
          let repo3 := repo2.addLoggedInUser memberId name (some roomId) clientId
          let evs := [Emit.toSocket clientId
              (.roomJoined updatedRoom.roomId updatedRoom.hostId
                updatedRoom.members (updatedRoom.theme.getD "none")),
            Emit.toRoomExcept roomId clientId
              (.memberJoined memberId name updatedRoom.members)]
          let evs2 := if memberId ≠ updatedRoom.hostId then
              match repo3.getUserSocket updatedRoom.hostId with
              | some hostSocketId =>
                [Emit.toSocket hostSocketId (.viewerJoined clientId)]
              | none => []
            else []
          (⟨repo3, g2.ms, g2.pendingDisconnects⟩,
            evsLeave ++ evs ++ evs2 ++ [Emit.toSocket clientId .chatHistory])

/-- `handleLeaveRoom` (`leave-room {roomId, memberId}`): remove the member
and broadcast `member-left`; when the host left the room is deleted by the
service (the handler only logs this — it broadcasts no `room-deleted` and
closes no media); always drop the mappings and the presence record. -/
def handleLeaveRoom (g : RoomsGateway) (roomId memberId _clientId : String) :
    RoomsGateway × List Emit :=
  let (result, repo1) := RoomsService.leaveRoom g.repo roomId memberId
  let evs := match result with
    | some res => [Emit.toRoom roomId (.memberLeft res.memberId res.members)]
    | none => []
  let repo2 := repo1.deleteUserSocket memberId
  let repo3 := repo2.deleteUserRoom memberId
  let repo4 := repo3.removeLoggedInUser memberId
  (⟨repo4, g.ms, g.pendingDisconnects⟩, evs)

/-- `handleUpdateTheme` (`update-theme {roomId, theme}`). -/
def handleUpdateTheme (g : RoomsGateway) (roomId theme : String) :
    RoomsGateway × List Emit :=
  match RoomsService.updateRoomTheme g.repo roomId theme with
  | (repo1, true) =>
    ({ g with repo := repo1 }, [Emit.toRoom roomId (.themeUpdated theme)])
  | (repo1, false) => ({ g with repo := repo1 }, [])

end RoomsGateway

/-- The inbound events of claim C1 (create-room, join-room, leave-room,
transport disconnect and grace-timer expiry). -/
inductive GOp where
  | createRoom (hostId name socketId : String)
  | joinRoom (roomId memberId name socketId : String)
  | leaveRoom (roomId memberId socketId : String)
  | disconnect (socketId : String)
  | graceExpire (userId : String) (live : List String) (sample : Nat → ℚ)

def GOp.apply (g : RoomsGateway) : GOp → RoomsGateway
  | .createRoom hostId name socketId =>
      (g.handleCreateRoom hostId name socketId).1
  | .joinRoom roomId memberId name socketId =>
      (g.handleJoinRoom roomId memberId name socketId).1
  | .leaveRoom roomId memberId socketId =>
      (g.handleLeaveRoom roomId memberId socketId).1
  | .disconnect socketId => g.handleDisconnect socketId
  | .graceExpire userId live sample =>
      (g.graceExpire userId live sample).1

/-- The gateway at process start: empty registry, no timers, media engine
fresh from `createWorkers`. -/
def gwInit (cpuCount : Nat) : RoomsGateway :=
  ⟨{}, MediasoupService.init cpuCount, []⟩

def gwRun (g : RoomsGateway) (ops : List GOp) : RoomsGateway :=
  ops.foldl GOp.apply g

theorem cancel_repo (g : RoomsGateway) (userId : String) :
    (g.cancelPendingDisconnect userId).1.repo = g.repo := by
  unfold RoomsGateway.cancelPendingDisconnect
  cases alGet g.pendingDisconnects userId <;> rfl

theorem cancel_ms (g : RoomsGateway) (userId : String) :
    (g.cancelPendingDisconnect userId).1.ms = g.ms := by
  unfold RoomsGateway.cancelPendingDisconnect
  cases alGet g.pendingDisconnects userId <;> rfl

/-- **C9.** On `update-theme {roomId, theme}` for an existing room, the
server updates the room's stored theme to the given value and broadcasts
`theme-updated {theme}` to all members of the room. -/
theorem c9_update_theme (g : RoomsGateway) (roomId theme : String)
    (room : Room) (h : g.repo.findRoomById roomId = some room) :
    (g.handleUpdateTheme roomId theme).1.repo.findRoomById roomId =
      some { room with theme := some theme }
    ∧ (g.handleUpdateTheme roomId theme).2 =
      [Emit.toRoom roomId (.themeUpdated theme)] := by
  have hrid := (findRoomById_some h).2
  unfold RoomsGateway.handleUpdateTheme RoomsService.updateRoomTheme
  simp only [h]
  constructor
  · unfold RoomsRepository.findRoomById at h ⊢
    exact find?_updateFirst_self _ _ _ room h (by simp [hrid])
  · trivial

/-- A concrete gateway state for the theme witness: one room with host `H`
and viewer `V`. -/
def c9state : RoomsGateway :=
  ⟨{ rooms := [⟨"R", "H", ["H", "V"], none⟩]
     userSocketMap := [("H", "c1"), ("V", "c2")]
     userRoomMap := [("H", "R"), ("V", "R")]
     loggedInUsers := [("H", ⟨"H", "Alice", some "R", "c1"⟩),
                       ("V", ⟨"V", "Bob", some "R", "c2"⟩)] },
   MediasoupService.init 4, []⟩

/-- Witness for C9 at a concrete room. -/
theorem c9_witness :
    (c9state.handleUpdateTheme "R" "christmas").1.repo.findRoomById "R" =
      some ⟨"R", "H", ["H", "V"], some "christmas"⟩
    ∧ (c9state.handleUpdateTheme "R" "christmas").2 =
      [Emit.toRoom "R" (.themeUpdated "christmas")] := by
  have h := c9_update_theme c9state "R" "christmas"
    ⟨"R", "H", ["H", "V"], none⟩ (by decide)
  exact ⟨h.1, h.2⟩

/-- **C5.** When `join-room {roomId, memberId, name}` arrives for an
existing room, the joiner is not in the room's members, and another member
with a different identity already has the same name, the server emits the
exact duplicate-name error to the joiner only, and the registry (member
list, mappings, presence) and media state are left unchanged. -/
theorem c5_duplicate_name (g : RoomsGateway)
    (roomId memberId name clientId : String) (room : Room)
    (hroom : g.repo.findRoomById roomId = some room)
    (hnot : memberId ∉ room.members)
    (hdup : ((RoomsService.getRoomMembersWithDetails g.repo roomId).find?
      (fun m => m.name = name ∧ m.genID ≠ memberId)).isSome = true) :
    (g.handleJoinRoom roomId memberId name clientId).1.repo = g.repo
    ∧ (g.handleJoinRoom roomId memberId name clientId).1.ms = g.ms
    ∧ (g.handleJoinRoom roomId memberId name clientId).2 =
      [Emit.toSocket clientId (.error
        (strConcat3 "The name \"" name
          "\" is already taken in this room. Please choose another name."))] := by
  have hcond : (if memberId ∈ room.members then false
      else ((RoomsService.getRoomMembersWithDetails g.repo roomId).find?
        (fun m => m.name = name ∧ m.genID ≠ memberId)).isSome) = true := by
    rw [if_neg hnot]
    exact hdup
  unfold RoomsGateway.handleJoinRoom
  simp only [hroom]
  cases hpend : alGet g.pendingDisconnects memberId with
  | none =>
    simp only [RoomsGateway.cancelPendingDisconnect, hpend]
    rw [if_pos hcond]
    exact ⟨rfl, rfl, rfl⟩
  | some rid =>
    simp only [RoomsGateway.cancelPendingDisconnect, hpend]
    rw [if_pos hcond]
    exact ⟨rfl, rfl, rfl⟩

/-- A concrete state for the duplicate-name witness: room `R` has a
member named `Bob`; a fresh identity `V2` tries to join as `Bob`. -/
def c5state : RoomsGateway :=
  ⟨{ rooms := [⟨"R", "H", ["H", "V"], none⟩]
     userSocketMap := [("H", "c1"), ("V", "c2")]
     userRoomMap := [("H", "R"), ("V", "R")]
     loggedInUsers := [("H", ⟨"H", "Alice", some "R", "c1"⟩),
                       ("V", ⟨"V", "Bob", some "R", "c2"⟩)] },
   MediasoupService.init 4, []⟩

/-- Witness for C5: joining room `R` as `V2` with the taken name `Bob`. -/
theorem c5_witness :
    (c5state.handleJoinRoom "R" "V2" "Bob" "c3").1.repo = c5state.repo
    ∧ (c5state.handleJoinRoom "R" "V2" "Bob" "c3").1.ms = c5state.ms
    ∧ (c5state.handleJoinRoom "R" "V2" "Bob" "c3").2 =
      [Emit.toSocket "c3" (.error
        (strConcat3 "The name \"" "Bob"
          "\" is already taken in this room. Please choose another name."))] := by
  have h := c5_duplicate_name c5state "R" "V2" "Bob" "c3"
    ⟨"R", "H", ["H", "V"], none⟩ (by decide) (by decide) (by decide)
  exact ⟨h.1, h.2.1, h.2.2⟩

/-- **C2.** When a disconnect grace-period timer fires, if the registry
binds the userId to a live connection the handler is a complete no-op
(state — room, mappings, presence, media — unchanged and nothing
broadcast); when the bound connection is not live (or there is none), the
departure is committed: the presence record is removed, and the user's
socket and room mappings are cleared whenever a room was bound. -/
theorem c2_grace_fire_liveness (g : RoomsGateway) (userId : String)
    (roomId : Option String) (live : List String) (sample : Nat → ℚ) :
    (∀ sid, g.repo.getUserSocket userId = some sid → sid ∈ live →
      g.processUserDisconnect userId roomId live sample = (g, []))
    ∧ ((∀ sid, g.repo.getUserSocket userId = some sid → sid ∉ live) →
      ((g.processUserDisconnect
          userId roomId live sample).1.repo.getLoggedInUser userId = none
        ∧ (∀ rid, g.repo.getUserRoom userId = some rid →
            (g.processUserDisconnect
              userId roomId live sample).1.repo.getUserSocket userId = none
            ∧ (g.processUserDisconnect
              userId roomId live sample).1.repo.getUserRoom userId = none))) := by
  constructor
  · intro sid hsid hlive
    unfold RoomsGateway.processUserDisconnect
    simp only [hsid]
    rw [if_pos (by simpa using hlive)]
  · intro hnotlive
    have hskip : (match g.repo.getUserSocket userId with
        | some sid => decide (sid ∈ live)
        | none => false) = false := by
      cases hsock : g.repo.getUserSocket userId with
      | none => rfl
      | some sid => simpa using hnotlive sid hsock
    unfold RoomsGateway.processUserDisconnect
    rw [hskip]
    simp only [Bool.false_eq_true, if_false]
    refine ⟨?_, ?_⟩
    · show alGet (alDel _ userId) userId = none
      exact alGet_alDel_self _ _
    · intro rid hrid
      unfold RoomsService.handleUserDisconnect
      simp only [hrid]
      constructor
      · show alGet (alDel _ userId) userId = none
        exact alGet_alDel_self _ _
      · show alGet (alDel _ userId) userId = none
        exact alGet_alDel_self _ _

/-- A concrete state for the grace-timer witness. -/
def c2state : RoomsGateway :=
  ⟨{ rooms := [⟨"R", "H", ["H", "V"], none⟩]
     userSocketMap := [("H", "c1"), ("V", "c2")]
     userRoomMap := [("H", "R"), ("V", "R")]
     loggedInUsers := [("H", ⟨"H", "Alice", some "R", "c1"⟩),
                       ("V", ⟨"V", "Bob", some "R", "c2"⟩)] },
   MediasoupService.init 4, []⟩

/-- Witness for C2: with `c1` live the fire is a no-op; with no live
socket the departure commits and the presence record is gone. -/
theorem c2_witness :
    c2state.processUserDisconnect "H" (some "R") ["c1", "c2"] (fun _ => 0) =
      (c2state, [])
    ∧ (c2state.processUserDisconnect
        "H" (some "R") [] (fun _ => 0)).1.repo.getLoggedInUser "H" = none
    ∧ (c2state.processUserDisconnect
        "H" (some "R") [] (fun _ => 0)).1.repo.getUserSocket "H" = none := by
  have h1 := (c2_grace_fire_liveness c2state "H" (some "R") ["c1", "c2"]
    (fun _ => 0)).1 "c1" (by decide) (by decide)
  have h2 := (c2_grace_fire_liveness c2state "H" (some "R") []
    (fun _ => 0)).2 (by decide)
  exact ⟨h1, h2.1, (h2.2 "R" (by decide)).1⟩

theorem findRoomById_deleteRoom (repo : RoomsRepository) (roomId : String) :
    (repo.deleteRoom roomId).findRoomById roomId = none := by
  unfold RoomsRepository.deleteRoom RoomsRepository.findRoomById
  rw [List.find?_eq_none]
  intro x hx
  have := (List.mem_filter.mp hx).2
  simpa using this

theorem closeRoom_routers_self (s : MediasoupService) (roomId : String)
    (sample : Nat → ℚ) :
    alGet (s.closeRoom roomId sample).routers roomId = none := by
  unfold MediasoupService.closeRoom
  cases halg : alGet s.routers roomId with
  | none => exact halg
  | some rr =>
    rw [(MediasoupService.checkAndScale_frame _ sample).1]
    exact alGet_alDel_self _ _

/-- Gateway state refuting claim C3's explicit-leave branch: room `R`
with host `H`, viewer `V`, and a live media router for `R`. -/
def c3state : RoomsGateway :=
  ⟨{ rooms := [⟨"R", "H", ["H", "V"], none⟩]
     userSocketMap := [("H", "c1"), ("V", "c2")]
     userRoomMap := [("H", "R"), ("V", "R")]
     loggedInUsers := [("H", ⟨"H", "Alice", some "R", "c1"⟩),
                       ("V", ⟨"V", "Bob", some "R", "c2"⟩)] },
   { MediasoupService.init 4 with routers := [("R", ⟨0, [], [], []⟩)] }, []⟩

/-- Counterexample to C3 as stated: when the host explicitly sends
`leave-room`, the room is removed from the registry, but the handler
broadcasts only `member-left` — no `room-deleted` — and the media router
for the room is left open (the media state is untouched). -/
theorem c3_counterexample :
    (c3state.handleLeaveRoom "R" "H" "c1").1.repo.findRoomById "R" = none
    ∧ (c3state.handleLeaveRoom "R" "H" "c1").2 =
        [Emit.toRoom "R" (.memberLeft "H" ["V"])]
    ∧ (c3state.handleLeaveRoom "R" "H" "c1").1.ms = c3state.ms
    ∧ alGet (c3state.handleLeaveRoom "R" "H" "c1").1.ms.routers "R" =
        some ⟨0, [], [], []⟩ := by
  decide

/-- **C3 (amended).** When the grace timer commits the departure of the
host, the room is destroyed: `member-left` and `room-deleted` are
broadcast, the media router for the room is closed and the room is
removed from the registry.  On an explicit `leave-room` by the host the
room is removed from the registry and `member-left` is broadcast, but no
`room-deleted` is sent and the media router is not closed.  If the
departing user is a viewer, the room persists on both paths. -/
theorem c3_host_departure_paths (g : RoomsGateway)
    (userId rid clientId : String) (live : List String) (sample : Nat → ℚ)
    (room : Room)
    (hroom : g.repo.findRoomById rid = some room)
    (hmem : userId ∈ room.members)
    (hbind : g.repo.getUserRoom userId = some rid)
    (hnotlive : ∀ sid, g.repo.getUserSocket userId = some sid → sid ∉ live) :
    (userId = room.hostId →
      (g.processUserDisconnect userId (some rid) live sample).2 =
        [Emit.toRoom rid (.memberLeft userId (room.members.erase userId)),
         Emit.toRoom rid (.roomDeleted "Host has left the room")]
      ∧ (g.processUserDisconnect
          userId (some rid) live sample).1.repo.findRoomById rid = none
      ∧ alGet (g.processUserDisconnect
          userId (some rid) live sample).1.ms.routers rid = none)
    ∧ (userId ≠ room.hostId →
      (g.processUserDisconnect userId (some rid) live sample).2 =
        [Emit.toRoom rid (.memberLeft userId (room.members.erase userId))]
      ∧ (g.processUserDisconnect
          userId (some rid) live sample).1.repo.findRoomById rid =
        some { room with members := room.members.erase userId }
      ∧ (g.processUserDisconnect userId (some rid) live sample).1.ms = g.ms)
    ∧ (userId = room.hostId →
      (g.handleLeaveRoom rid userId clientId).2 =
        [Emit.toRoom rid (.memberLeft userId (room.members.erase userId))]
      ∧ (g.handleLeaveRoom rid userId clientId).1.repo.findRoomById rid = none
      ∧ (g.handleLeaveRoom rid userId clientId).1.ms = g.ms)
    ∧ (userId ≠ room.hostId →
      (g.handleLeaveRoom rid userId clientId).1.repo.findRoomById rid =
        some { room with members := room.members.erase userId }) := by
  have hskip : (match g.repo.getUserSocket userId with
      | some sid => decide (sid ∈ live)
      | none => false) = false := by
    cases hsock : g.repo.getUserSocket userId with
    | none => rfl
    | some sid => simpa using hnotlive sid hsock
  have hridroom : room.roomId = rid := (findRoomById_some hroom).2
  refine ⟨?_, ?_, ?_, ?_⟩
  · intro hhost
    unfold RoomsGateway.processUserDisconnect
    rw [hskip]
    simp only [Bool.false_eq_true, if_false]
    unfold RoomsService.handleUserDisconnect
    simp only [hbind]
    unfold RoomsService.leaveRoom
    simp only [hroom, hmem, if_true, if_pos hhost]
    refine ⟨rfl, ?_, ?_⟩
    · show ((((g.repo.removeMemberFromRoom rid userId).1.deleteRoom
        rid).deleteUserSocket userId |>.deleteUserRoom
          userId).removeLoggedInUser userId).findRoomById rid = none
      exact findRoomById_deleteRoom _ rid
    · exact closeRoom_routers_self g.ms rid sample
  · intro hhost
    unfold RoomsGateway.processUserDisconnect
    rw [hskip]
    simp only [Bool.false_eq_true, if_false]
    unfold RoomsService.handleUserDisconnect
    simp only [hbind]
    unfold RoomsService.leaveRoom
    simp only [hroom, hmem, if_true, if_neg (fun hh => hhost hh)]
    refine ⟨rfl, ?_, rfl⟩
    · show ((((g.repo.removeMemberFromRoom rid
        userId).1.deleteUserSocket userId).deleteUserRoom
          userId).removeLoggedInUser userId).findRoomById rid =
        some { room with members := room.members.erase userId }
      unfold RoomsRepository.removeMemberFromRoom
      simp only [hroom, hmem, if_true]
      unfold RoomsRepository.findRoomById at hroom ⊢
      exact find?_updateFirst_self _ _ _ room hroom (by simp [hridroom])
  · intro hhost
    unfold RoomsGateway.handleLeaveRoom
    unfold RoomsService.leaveRoom
    simp only [hroom, hmem, if_true, if_pos hhost]
    refine ⟨by trivial, ?_, by trivial⟩
    show ((((g.repo.removeMemberFromRoom rid userId).1.deleteRoom
      rid).deleteUserSocket userId |>.deleteUserRoom
        userId).removeLoggedInUser userId).findRoomById rid = none
    exact findRoomById_deleteRoom _ rid
  · intro hhost
    unfold RoomsGateway.handleLeaveRoom
    unfold RoomsService.leaveRoom
    simp only [hroom, hmem, if_true, if_neg (fun hh => hhost hh)]
    show ((((g.repo.removeMemberFromRoom rid
      userId).1.deleteUserSocket userId).deleteUserRoom
        userId).removeLoggedInUser userId).findRoomById rid =
      some { room with members := room.members.erase userId }
    unfold RoomsRepository.removeMemberFromRoom
    simp only [hroom, hmem, if_true]
    unfold RoomsRepository.findRoomById at hroom ⊢
    exact find?_updateFirst_self _ _ _ room hroom (by simp [hridroom])

/-- Witness for the amended C3 at the counterexample state. -/
theorem c3_witness :
    ((c3state.processUserDisconnect "H" (some "R") [] (fun _ => 0)).2 =
      [Emit.toRoom "R" (.memberLeft "H" ["V"]),
       Emit.toRoom "R" (.roomDeleted "Host has left the room")]
    ∧ (c3state.processUserDisconnect
        "H" (some "R") [] (fun _ => 0)).1.repo.findRoomById "R" = none
    ∧ alGet (c3state.processUserDisconnect
        "H" (some "R") [] (fun _ => 0)).1.ms.routers "R" = none)
    ∧ ((c3state.handleLeaveRoom "R" "V" "c2").1.repo.findRoomById "R" =
      some ⟨"R", "H", ["H"], none⟩) := by
  have h := c3_host_departure_paths c3state "H" "R" "c1" [] (fun _ => 0)
    ⟨"R", "H", ["H", "V"], none⟩ (by decide) (by decide) (by decide)
    (by decide)
  have h2 := c3_host_departure_paths c3state "V" "R" "c2" [] (fun _ => 0)
    ⟨"R", "H", ["H", "V"], none⟩ (by decide) (by decide) (by decide)
    (by decide)
  obtain ⟨ha, _, _, _⟩ := h
  obtain ⟨_, _, _, hd⟩ := h2
  have ha' := ha (by decide)
  refine ⟨⟨?_, ha'.2.1, ha'.2.2⟩, ?_⟩
  · rw [ha'.1]
    decide
  · rw [hd (by decide)]
    decide

/-! ## Claim C1: the registry invariant over all reachable gateway states -/

theorem inv_joinRoom (repo : RoomsRepository) (roomId memberId : String)
    (h : registryInv repo) :
    registryInv (RoomsService.joinRoom repo roomId memberId).2 := by
  unfold RoomsService.joinRoom
  cases hf : repo.findRoomById roomId with
  | none => simp only [hf]; intro r hr; exact h r hr
  | some room =>
    simp only [hf]
    intro r hr
    exact inv_addMemberToRoom repo roomId memberId h r hr

theorem inv_gw_handleLeaveRoom (g : RoomsGateway)
    (roomId memberId clientId : String) (h : registryInv g.repo) :
    registryInv (g.handleLeaveRoom roomId memberId clientId).1.repo := by
  intro r hr
  exact inv_leaveRoom g.repo roomId memberId h r hr

theorem inv_gw_handleDisconnect (g : RoomsGateway) (socketId : String)
    (h : registryInv g.repo) :
    registryInv (g.handleDisconnect socketId).repo := by
  unfold RoomsGateway.handleDisconnect
  cases hf : g.repo.findUserIdBySocketId socketId with
  | none => simp only [hf]; intro r hr; exact h r hr
  | some userId => simp only [hf]; intro r hr; exact h r hr

theorem inv_gw_processUserDisconnect (g : RoomsGateway) (userId : String)
    (roomId : Option String) (live : List String) (sample : Nat → ℚ)
    (h : registryInv g.repo) :
    registryInv (g.processUserDisconnect userId roomId live sample).1.repo := by
  unfold RoomsGateway.processUserDisconnect
  by_cases hs : (match g.repo.getUserSocket userId with
      | some sid => decide (sid ∈ live)
      | none => false) = true
  · simp only [hs, eq_self_iff_true, if_true]
    intro r hr; exact h r hr
  · simp only [Bool.not_eq_true] at hs
    simp only [hs, Bool.false_eq_true, if_false]
    intro r hr
    exact inv_handleUserDisconnect g.repo userId h r hr

theorem inv_gw_graceExpire (g : RoomsGateway) (userId : String)
    (live : List String) (sample : Nat → ℚ) (h : registryInv g.repo) :
    registryInv (g.graceExpire userId live sample).1.repo := by
  unfold RoomsGateway.graceExpire
  cases hp : alGet g.pendingDisconnects userId with
  | none => simp only [hp]; intro r hr; exact h r hr
  | some rid =>
    simp only [hp]
    intro r hr
    exact inv_gw_processUserDisconnect
      { g with pendingDisconnects := alDel g.pendingDisconnects userId }
      userId rid live sample (fun r hr => h r hr) r hr

theorem inv_gw_handleCreateRoom (g : RoomsGateway)
    (hostId name clientId : String) (h : registryInv g.repo) :
    registryInv (g.handleCreateRoom hostId name clientId).1.repo := by
  unfold RoomsGateway.handleCreateRoom
  cases hur : g.repo.getUserRoom hostId with
  | none =>
    simp only [cancel_repo, cancel_ms, hur]
    intro r hr
    exact inv_createRoom g.repo hostId h r hr
  | some rid =>
    simp only [cancel_repo, cancel_ms, hur]
    cases hus : g.repo.getUserSocket hostId with
    | none =>
      cases hfr : g.repo.findRoomById rid with
      | none =>
        simp only [cancel_repo, cancel_ms, hus, hfr, Bool.not_false,
          eq_self_iff_true, if_true]
        intro r hr
        exact inv_createRoom _ hostId (inv_leaveRoom g.repo rid hostId h) r hr
      | some r2 =>
        by_cases hv : r2.members.length > 1
        · simp only [cancel_repo, cancel_ms, hus, hfr, decide_eq_true hv,
            Bool.not_true, Bool.false_eq_true, if_false]
          intro r hr
          exact inv_createRoom g.repo hostId h r hr
        · simp only [cancel_repo, cancel_ms, hus, hfr, decide_eq_false hv,
            Bool.not_false, eq_self_iff_true, if_true]
          intro r hr
          exact inv_createRoom _ hostId (inv_leaveRoom g.repo rid hostId h) r hr
    | some sid =>
      simp only [hus]
      by_cases hne : sid ≠ clientId
      · rw [if_pos hne]
        rcases hcu : g.ms.cleanupUserMedia rid sid with ⟨cp, ms1⟩
        have hss : registryInv (g.repo.setUserSocket hostId clientId) :=
          fun r hr => h r hr
        cases hfr : g.repo.findRoomById rid with
        | none =>
          simp only [hcu, hfr, Bool.not_false, eq_self_iff_true, if_true]
          intro r hr
          exact inv_createRoom _ hostId
            (inv_leaveRoom (g.repo.setUserSocket hostId clientId) rid hostId
              hss) r hr
        | some r2 =>
          by_cases hv : r2.members.length > 1
          · simp only [hcu, hfr, decide_eq_true hv, Bool.not_true,
              Bool.false_eq_true, if_false]
            intro r hr
            exact inv_createRoom (g.repo.setUserSocket hostId clientId) hostId
              hss r hr
          · simp only [hcu, hfr, decide_eq_false hv, Bool.not_false,
              eq_self_iff_true, if_true]
            intro r hr
            exact inv_createRoom _ hostId
              (inv_leaveRoom (g.repo.setUserSocket hostId clientId) rid hostId
                hss) r hr
      · rw [if_neg hne]
        cases hfr : g.repo.findRoomById rid with
        | none =>
          simp only [cancel_repo, cancel_ms, hfr, Bool.not_false,
            eq_self_iff_true, if_true]
          intro r hr
          exact inv_createRoom _ hostId (inv_leaveRoom g.repo rid hostId h) r hr
        | some r2 =>
          by_cases hv : r2.members.length > 1
          · simp only [cancel_repo, cancel_ms, hfr, decide_eq_true hv,
              Bool.not_true, Bool.false_eq_true, if_false]
            intro r hr
            exact inv_createRoom g.repo hostId h r hr
          · simp only [cancel_repo, cancel_ms, hfr, decide_eq_false hv,
              Bool.not_false, eq_self_iff_true, if_true]
            intro r hr
            exact inv_createRoom _ hostId (inv_leaveRoom g.repo rid hostId h) r hr

theorem inv_gw_handleJoinRoom (g : RoomsGateway)
    (roomId memberId name clientId : String) (h : registryInv g.repo) :
    registryInv (g.handleJoinRoom roomId memberId name clientId).1.repo := by
  unfold RoomsGateway.handleJoinRoom
  cases hf : g.repo.findRoomById roomId with
  | none =>
    simp only [hf]
    intro r hr; exact h r hr
  | some room =>
    rcases hc : g.cancelPendingDisconnect memberId with ⟨g1, w⟩
    have hg1 : g1.repo = g.repo := by
      have t := cancel_repo g memberId
      rw [hc] at t; exact t
    simp only [hf, hc, hg1]
    by_cases hdupc : (if memberId ∈ room.members then false
        else ((RoomsService.getRoomMembersWithDetails g.repo roomId).find?
          (fun m => m.name = name ∧ m.genID ≠ memberId)).isSome) = true
    · rw [if_pos hdupc]
      simp only [hg1]
      intro r hr; exact h r hr
    · rw [if_neg hdupc]
      by_cases hcond : memberId ∈ room.members ∨ w = true ∨
          g.repo.isUserLoggedInToRoom memberId roomId = true
      · rw [if_pos hcond]
        cases hgs : g.repo.getUserSocket memberId with
        | none =>
          simp only [hgs]
          by_cases hm : memberId ∈ room.members
          · rw [if_pos hm]
            intro r hr; exact h r hr
          · rw [if_neg hm]
            intro r hr
            exact inv_joinRoom
              (((g.repo.setUserSocket memberId clientId).setUserRoom memberId
                roomId).addLoggedInUser memberId name (some roomId) clientId)
              roomId memberId (fun r hr => h r hr) r hr
        | some sid =>
          simp only [hgs]
          by_cases hne : sid ≠ clientId
          · rw [if_pos hne]
            by_cases hm : memberId ∈ room.members
            · rw [if_pos hm]
              intro r hr; exact h r hr
            · rw [if_neg hm]
              intro r hr
              exact inv_joinRoom
                ((((g.repo.setUserSocket memberId clientId).setUserSocket
                  memberId clientId).setUserRoom memberId
                  roomId).addLoggedInUser memberId name (some roomId) clientId)
                roomId memberId (fun r hr => h r hr) r hr
          · rw [if_neg hne]
            by_cases hm : memberId ∈ room.members
            · rw [if_pos hm]
              intro r hr; exact h r hr
            · rw [if_neg hm]
              intro r hr
              exact inv_joinRoom
                (((g.repo.setUserSocket memberId clientId).setUserRoom memberId
                  roomId).addLoggedInUser memberId name (some roomId) clientId)
                roomId memberId (fun r hr => h r hr) r hr
      · rw [if_neg hcond]
        cases hgr : g.repo.getUserRoom memberId with
        | none =>
          simp only [hgr, hg1]
          rcases hj : RoomsService.joinRoom g.repo roomId memberId with ⟨o, repoJ⟩
          have hJ : registryInv repoJ := by
            have t := inv_joinRoom g.repo roomId memberId h
            rw [hj] at t; exact t
          cases o with
          | none => simp only [hj]; intro r hr; exact hJ r hr
          | some u => simp only [hj]; intro r hr; exact hJ r hr
        | some erid =>
          simp only [hgr]
          by_cases her : erid ≠ roomId
          · rw [if_pos her]
            rcases hl : RoomsService.leaveRoom g.repo erid memberId
              with ⟨ol, repoL⟩
            have hL : registryInv repoL := by
              have t := inv_leaveRoom g.repo erid memberId h
              rw [hl] at t; exact t
            cases ol with
            | none =>
              simp only [hl]
              rcases hj : RoomsService.joinRoom repoL roomId memberId
                with ⟨o, repoJ⟩
              have hJ : registryInv repoJ := by
                have t := inv_joinRoom repoL roomId memberId hL
                rw [hj] at t; exact t
              cases o with
              | none => simp only [hj]; intro r hr; exact hJ r hr
              | some u => simp only [hj]; intro r hr; exact hJ r hr
            | some res =>
              simp only [hl]
              rcases hj : RoomsService.joinRoom repoL roomId memberId
                with ⟨o, repoJ⟩
              have hJ : registryInv repoJ := by
                have t := inv_joinRoom repoL roomId memberId hL
                rw [hj] at t; exact t
              cases o with
              | none => simp only [hj]; intro r hr; exact hJ r hr
              | some u => simp only [hj]; intro r hr; exact hJ r hr
          · rw [if_neg her]
            simp only [hg1]
            rcases hj : RoomsService.joinRoom g.repo roomId memberId
              with ⟨o, repoJ⟩
            have hJ : registryInv repoJ := by
              have t := inv_joinRoom g.repo roomId memberId h
              rw [hj] at t; exact t
            cases o with
            | none => simp only [hj]; intro r hr; exact hJ r hr
            | some u => simp only [hj]; intro r hr; exact hJ r hr

theorem inv_GOp_apply (g : RoomsGateway) (op : GOp) (h : registryInv g.repo) :
    registryInv (GOp.apply g op).repo := by
  cases op with
  | createRoom hostId name socketId =>
    exact inv_gw_handleCreateRoom g hostId name socketId h
  | joinRoom roomId memberId name socketId =>
    exact inv_gw_handleJoinRoom g roomId memberId name socketId h
  | leaveRoom roomId memberId socketId =>
    exact inv_gw_handleLeaveRoom g roomId memberId socketId h
  | disconnect socketId =>
    exact inv_gw_handleDisconnect g socketId h
  | graceExpire userId live sample =>
    exact inv_gw_graceExpire g userId live sample h

theorem inv_gwRun (ops : List GOp) :
    ∀ g : RoomsGateway, registryInv g.repo → registryInv (gwRun g ops).repo := by
  induction ops with
  | nil => intro g h; exact h
  | cons op rest ih =>
    intro g h
    exact ih _ (inv_GOp_apply g op h)

/-- **C1.** In every reachable state of the room registry — starting from
the freshly initialised gateway and applying any sequence of create-room,
join-room, leave-room, transport-disconnect and disconnect-grace-expiry
operations — every room `r` present in the registry satisfies
`r.hostId ∈ r.members` and `r.members` contains no duplicate userIds. -/
theorem c1_registry_invariant (cpuCount : Nat) (ops : List GOp) :
    ∀ r ∈ (gwRun (gwInit cpuCount) ops).repo.rooms,
      r.hostId ∈ r.members ∧ r.members.Nodup := by
  have h0 : registryInv (gwInit cpuCount).repo := by
    intro r hr
    cases hr
  exact inv_gwRun ops (gwInit cpuCount) h0

set_option maxRecDepth 100000 in
/-- Witness for C1: after a single `create-room` from the fresh gateway,
the registered room contains its host exactly once. -/
theorem c1_witness :
    (⟨RoomsService.generateRoomId "H", "H", ["H"], none⟩ : Room) ∈
        (gwRun (gwInit 4) [GOp.createRoom "H" "Alice" "c1"]).repo.rooms
    ∧ ("H" ∈ (["H"] : List String) ∧ (["H"] : List String).Nodup) :=
  ⟨by decide, c1_registry_invariant 4 [GOp.createRoom "H" "Alice" "c1"]
    ⟨RoomsService.generateRoomId "H", "H", ["H"], none⟩ (by decide)⟩

end SpinBe
